import Mathlib

/-!
Verification of the task-lifecycle / reward / achievement contracts of this
repository.  The Solidity sources are shallowly embedded:

* `RL`  — the ERC-1155 `RewardContract` (MINTER_ROLE-gated `mintReward`,
  `mintBatchReward`, `pause`/`unpause`).
* `TB`  — the status-machine `TaskContract`
  (`createTask`/`claimTask`/`completeTask`/`verifyTask`) that calls into `RL`.
* `TA`  — the apply/assign `TaskContract` variant
  (`createTask`/`applyForTask`/`assignTask`/`completeTask`/`cancelTask`).
* `Ach` — the `AchievementBadge` ERC-721 contract (counters, streaks,
  threshold chains, one-shot badge flags).

Addresses are `Nat` (0 is the zero address), amounts and timestamps are `Nat`,
mappings are Lean functions with Solidity's zero defaults.  A reverting
Solidity call is an `Except Err` error: the caller observes the error and no
state change.  Require-messages are mapped to the `Err` constructors named
after the spec's error taxonomy.
-/

/-- Error kinds, mirroring the require-messages of the contracts. -/
inductive Err where
  | notFound        -- "Task does not exist"
  | notAuthorized   -- "Not authorized ...", missing role
  | invalidState    -- wrong lifecycle state ("Task not available", "Task not completed", ...)
  | alreadyApplied  -- "Already applied for this task"
  | invalidReward   -- "No rewards specified"
  | lengthMismatch  -- "Mismatched rewards" / ERC1155 length mismatch
  | paused          -- Pausable: paused
  | notPaused       -- Pausable: not paused (unpausing an unpaused ledger)
  | zeroAddress     -- mint to the zero address (ERC721/ERC1155 _mint)
  | tokenExists     -- ERC721 _safeMint on an existing token id
  | alreadyAwarded  -- "User already has this achievement"
  deriving DecidableEq, Repr

/-- `true` iff the call returned without reverting. -/
def exceptOk {α : Type} (e : Except Err α) : Bool :=
  match e with
  | .ok _ => true
  | .error _ => false

namespace RL

/-- State of the ERC-1155 `RewardContract`: pause flag, MINTER_ROLE and
PAUSER_ROLE holders, and the (holder, asset id) → amount balance mapping. -/
structure State where
  paused : Bool
  minters : List Nat
  pausers : List Nat
  bal : Nat → Nat → Nat

/-- `mintReward(rcpt, id, amount, data)`: `onlyRole(MINTER_ROLE)`,
`whenNotPaused`, then ERC1155 `_mint` (which itself requires a nonzero
recipient) credits `amount` of asset `id` to `rcpt`. -/
def mintReward (caller rcpt id amount : Nat) (s : State) : Except Err State :=
  if caller ∈ s.minters then
    if s.paused then .error .paused
    else if rcpt = 0 then .error .zeroAddress
    else .ok { s with bal := fun a i => if a = rcpt ∧ i = id then s.bal a i + amount else s.bal a i }
  else .error .notAuthorized

/-- Credit each `(id, amount)` pair of a batch to `rcpt`, in order
(ERC1155 `_mintBatch` loop body). -/
def creditBatch (rcpt : Nat) (pairs : List (Nat × Nat)) (bal : Nat → Nat → Nat) :
    Nat → Nat → Nat :=
  pairs.foldl (fun b p => fun a i => if a = rcpt ∧ i = p.1 then b a i + p.2 else b a i) bal

/-- `mintBatchReward(rcpt, ids, amounts, data)`: `onlyRole(MINTER_ROLE)`,
`whenNotPaused`, then ERC1155 `_mintBatch` (nonzero recipient, equal array
lengths) credits every pair. -/
def mintBatchReward (caller rcpt : Nat) (ids amounts : List Nat) (s : State) :
    Except Err State :=
  if caller ∈ s.minters then
    if s.paused then .error .paused
    else if rcpt = 0 then .error .zeroAddress
    else if ids.length = amounts.length then
      .ok { s with bal := creditBatch rcpt (ids.zip amounts) s.bal }
    else .error .lengthMismatch
  else .error .notAuthorized

/-- `pause()`: `onlyRole(PAUSER_ROLE)`; `_pause` itself requires the
contract not to be paused already. -/
def pause (caller : Nat) (s : State) : Except Err State :=
  if caller ∈ s.pausers then
    if s.paused then .error .paused else .ok { s with paused := true }
  else .error .notAuthorized

/-- `unpause()`: `onlyRole(PAUSER_ROLE)`; `_unpause` requires paused. -/
def unpause (caller : Nat) (s : State) : Except Err State :=
  if caller ∈ s.pausers then
    if s.paused then .ok { s with paused := false } else .error .notPaused
  else .error .notAuthorized

end RL

namespace TB

/-- `TaskStatus` of the status-machine `TaskContract`. -/
inductive TaskStatus where
  | created | inProgress | completed | verified
  deriving DecidableEq, Repr

/-- A `Task` record; the mapping default (a nonexistent task) has `id = 0`. -/
structure Task where
  id : Nat
  creator : Nat
  completer : Nat
  metadataURI : String
  status : TaskStatus
  rewardIds : List Nat
  rewardAmounts : List Nat

/-- The all-zero `Task` a Solidity mapping returns for an absent key. -/
def noTask : Task :=
  { id := 0, creator := 0, completer := 0, metadataURI := ""
    status := .created, rewardIds := [], rewardAmounts := [] }

/-- Combined state: the `TaskContract` storage plus the `RewardContract` it
is linked to; `tbAddr` is the `TaskContract`'s own address (the `msg.sender`
the reward contract sees on the verify→mint call). -/
structure State where
  taskCounter : Nat
  tasks : Nat → Task
  rl : RL.State
  tbAddr : Nat

/-- `createTask(metadataURI, rewardIds, rewardAmounts)`: the two requires
("Mismatched rewards", "No rewards specified"), then the task is stored at
the incremented counter with status `Created`. -/
def createTask (caller : Nat) (uri : String) (ids amounts : List Nat) (s : State) :
    Except Err State :=
  if ids.length = amounts.length then
    if 0 < ids.length then
      let newId := s.taskCounter + 1
      .ok { s with
              taskCounter := newId
              tasks := fun i => if i = newId then
                  { id := newId, creator := caller, completer := 0,
                    metadataURI := uri, status := .created,
                    rewardIds := ids, rewardAmounts := amounts }
                else s.tasks i }
    else .error .invalidReward
  else .error .lengthMismatch

/-- `claimTask(taskId)`: task must exist and be `Created`; sets status
`InProgress` and records the caller as completer. -/
def claimTask (caller id : Nat) (s : State) : Except Err State :=
  let t := s.tasks id
  if t.id = 0 then .error .notFound
  else if t.status = .created then
    .ok { s with tasks := fun i => if i = id then
            { t with status := .inProgress, completer := caller }
          else s.tasks i }
  else .error .invalidState

/-- `completeTask(taskId)`: task must exist, caller must be the completer,
status must be `InProgress`; transitions to `Completed`. -/
def completeTask (caller id : Nat) (s : State) : Except Err State :=
  let t := s.tasks id
  if t.id = 0 then .error .notFound
  else if t.completer = caller then
    if t.status = .inProgress then
      .ok { s with tasks := fun i => if i = id then
              { t with status := .completed }
            else s.tasks i }
    else .error .invalidState
  else .error .notAuthorized

/-- `verifyTask(taskId)`: task must exist, caller must be the creator,
status must be `Completed` with a completer assigned; the status is flipped
to `Verified` and the reward contract is called (`mintReward` for a single
pair, `mintBatchReward` otherwise) with the task contract as `msg.sender`.
A reverting mint reverts the whole call. -/
def verifyTask (caller id : Nat) (s : State) : Except Err State :=
  let t := s.tasks id
  if t.id = 0 then .error .notFound
  else if caller = t.creator then
    if t.status = .completed then
      if t.completer = 0 then .error .invalidState
      else
        let s1 : State := { s with tasks := fun i => if i = id then
                              { t with status := .verified }
                            else s.tasks i }
        let mintRes : Except Err RL.State :=
          if t.rewardIds.length = 1 then
            RL.mintReward s.tbAddr t.completer (t.rewardIds.headD 0)
              (t.rewardAmounts.headD 0) s1.rl
          else
            RL.mintBatchReward s.tbAddr t.completer t.rewardIds t.rewardAmounts s1.rl
        match mintRes with
        | .ok rl' => .ok { s1 with rl := rl' }
        | .error e => .error e
    else .error .invalidState
  else .error .notAuthorized

/-- Operations of the combined task/reward system. -/
inductive Op where
  | create (caller : Nat) (uri : String) (ids amounts : List Nat)
  | claim (caller id : Nat)
  | complete (caller id : Nat)
  | verify (caller id : Nat)
  | rlMint (caller rcpt id amount : Nat)
  | rlMintBatch (caller rcpt : Nat) (ids amounts : List Nat)
  | rlPause (caller : Nat)
  | rlUnpause (caller : Nat)

/-- One transaction. -/
def step (op : Op) (s : State) : Except Err State :=
  match op with
  | .create c u ids amts => createTask c u ids amts s
  | .claim c id => claimTask c id s
  | .complete c id => completeTask c id s
  | .verify c id => verifyTask c id s
  | .rlMint c rcpt id a =>
      match RL.mintReward c rcpt id a s.rl with
      | .ok rl' => .ok { s with rl := rl' }
      | .error e => .error e
  | .rlMintBatch c rcpt ids amts =>
      match RL.mintBatchReward c rcpt ids amts s.rl with
      | .ok rl' => .ok { s with rl := rl' }
      | .error e => .error e
  | .rlPause c =>
      match RL.pause c s.rl with
      | .ok rl' => .ok { s with rl := rl' }
      | .error e => .error e
  | .rlUnpause c =>
      match RL.unpause c s.rl with
      | .ok rl' => .ok { s with rl := rl' }
      | .error e => .error e

/-- The state a transaction leaves behind: its result when it commits, the
unchanged state when it reverts. -/
def stepK (op : Op) (s : State) : State :=
  match step op s with | .ok s' => s' | .error _ => s

/-- Run a sequence of transactions; a reverted transaction leaves the state
unchanged. -/
def run (ops : List Op) (s : State) : State :=
  ops.foldl (fun st op => stepK op st) s

/-- Total amount of asset `i` a reward spec pays out (sum of the amounts at
positions whose reward id equals `i`; `zip` drops unmatched tail entries,
as the paired arrays are validated to have equal length). -/
def rewardTotal (ids amounts : List Nat) (i : Nat) : Nat :=
  (((ids.zip amounts).filter (fun p => p.1 = i)).map (fun p => p.2)).sum

end TB

namespace Ach

/-- The sixteen achievement types of `AchievementBadge`. -/
inductive AchievementType where
  | FIRST_TASK
  | TASK_MILESTONE_5
  | TASK_MILESTONE_10
  | TASK_MILESTONE_25
  | TASK_MILESTONE_50
  | TASK_MILESTONE_100
  | EARLY_ADOPTER
  | TOKEN_COLLECTOR_100
  | TOKEN_COLLECTOR_500
  | TOKEN_COLLECTOR_1000
  | COMMUNITY_BUILDER
  | MENTOR
  | STREAK_7
  | STREAK_30
  | TOP_PERFORMER
  | HELPFUL_REVIEWER
  deriving DecidableEq, Repr

open AchievementType

/-- `getAchievementTitle`. -/
def getAchievementTitle (t : AchievementType) : String :=
  match t with
  | FIRST_TASK => "First Quest"
  | TASK_MILESTONE_5 => "Getting Started"
  | TASK_MILESTONE_10 => "Task Hunter"
  | TASK_MILESTONE_25 => "Dedicated Worker"
  | TASK_MILESTONE_50 => "Veteran Quester"
  | TASK_MILESTONE_100 => "Quest Master"
  | EARLY_ADOPTER => "Early Adopter"
  | TOKEN_COLLECTOR_100 => "Token Collector"
  | TOKEN_COLLECTOR_500 => "Wealth Builder"
  | TOKEN_COLLECTOR_1000 => "Token Whale"
  | COMMUNITY_BUILDER => "Community Builder"
  | MENTOR => "Mentor"
  | STREAK_7 => "Week Warrior"
  | STREAK_30 => "Monthly Champion"
  | TOP_PERFORMER => "Top Performer"
  | HELPFUL_REVIEWER => "Helpful Reviewer"

/-- `getAchievementDescription`. -/
def getAchievementDescription (t : AchievementType) : String :=
  match t with
  | FIRST_TASK => "Completed your first task on SideQuests"
  | TASK_MILESTONE_5 => "Completed 5 tasks"
  | TASK_MILESTONE_10 => "Completed 10 tasks"
  | TASK_MILESTONE_25 => "Completed 25 tasks"
  | TASK_MILESTONE_50 => "Completed 50 tasks"
  | TASK_MILESTONE_100 => "Completed 100 tasks"
  | EARLY_ADOPTER => "One of the first 100 users"
  | TOKEN_COLLECTOR_100 => "Earned 100 HLP tokens"
  | TOKEN_COLLECTOR_500 => "Earned 500 HLP tokens"
  | TOKEN_COLLECTOR_1000 => "Earned 1000 HLP tokens"
  | COMMUNITY_BUILDER => "Created 10 tasks"
  | MENTOR => "Had 10 tasks completed by others"
  | STREAK_7 => "Completed tasks 7 days in a row"
  | STREAK_30 => "Completed tasks 30 days in a row"
  | TOP_PERFORMER => "Top 10 performer of the month"
  | HELPFUL_REVIEWER => "Reviewed/verified 50 tasks"

/-- `getAchievementRarity` (1=Common, 2=Rare, 3=Epic, 4=Legendary). -/
def getAchievementRarity (t : AchievementType) : Nat :=
  match t with
  | FIRST_TASK => 1
  | TASK_MILESTONE_5 => 1
  | TASK_MILESTONE_10 => 2
  | TASK_MILESTONE_25 => 2
  | TASK_MILESTONE_50 => 3
  | TASK_MILESTONE_100 => 4
  | EARLY_ADOPTER => 3
  | TOKEN_COLLECTOR_100 => 1
  | TOKEN_COLLECTOR_500 => 2
  | TOKEN_COLLECTOR_1000 => 3
  | COMMUNITY_BUILDER => 2
  | MENTOR => 3
  | STREAK_7 => 2
  | STREAK_30 => 4
  | TOP_PERFORMER => 4
  | HELPFUL_REVIEWER => 3

/-- `getDefaultTokenURI`. -/
def getDefaultTokenURI (t : AchievementType) : String :=
  let baseURI := "https://api.sidequests.com/badges/"
  match t with
  | FIRST_TASK => baseURI ++ "first-task.json"
  | TASK_MILESTONE_5 => baseURI ++ "milestone-5.json"
  | TASK_MILESTONE_10 => baseURI ++ "milestone-10.json"
  | TASK_MILESTONE_25 => baseURI ++ "milestone-25.json"
  | TASK_MILESTONE_50 => baseURI ++ "milestone-50.json"
  | TASK_MILESTONE_100 => baseURI ++ "milestone-100.json"
  | EARLY_ADOPTER => baseURI ++ "early-adopter.json"
  | TOKEN_COLLECTOR_100 => baseURI ++ "tokens-100.json"
  | TOKEN_COLLECTOR_500 => baseURI ++ "tokens-500.json"
  | TOKEN_COLLECTOR_1000 => baseURI ++ "tokens-1000.json"
  | COMMUNITY_BUILDER => baseURI ++ "community-builder.json"
  | MENTOR => baseURI ++ "mentor.json"
  | STREAK_7 => baseURI ++ "streak-7.json"
  | STREAK_30 => baseURI ++ "streak-30.json"
  | TOP_PERFORMER => baseURI ++ "top-performer.json"
  | HELPFUL_REVIEWER => baseURI ++ "helpful-reviewer.json"

/-- Badge metadata stored per token id. -/
structure Badge where
  achievementType : AchievementType
  title : String
  description : String
  imageURI : String
  mintedAt : Nat
  rarity : Nat

/-- State of the `AchievementBadge` contract.  `owners` is the ERC721
owner-of mapping (0 = token does not exist); `mintLog` records the
`BadgeMinted(recipient, tokenId, achievementType)` events as
(recipient, type) pairs, in emission order.  The constructor starts the
token id counter at 1. -/
structure State where
  minters : List Nat
  admins : List Nat
  tokenIdCounter : Nat
  owners : Nat → Nat
  tokenURIs : Nat → String
  badges : Nat → Option Badge
  hasAchievement : Nat → AchievementType → Bool
  tasksCompleted : Nat → Nat
  tokensEarned : Nat → Nat
  tasksCreated : Nat → Nat
  lastTaskCompletionDate : Nat → Nat
  currentStreak : Nat → Nat
  maxStreak : Nat → Nat
  mintLog : List (Nat × AchievementType)

/-- Fresh deployment: `admin` holds DEFAULT_ADMIN_ROLE and MINTER_ROLE,
token ids start at 1, every mapping is at its zero default. -/
def achInit (admin : Nat) : State :=
  { minters := [admin], admins := [admin], tokenIdCounter := 1
    owners := fun _ => 0, tokenURIs := fun _ => ""
    badges := fun _ => none, hasAchievement := fun _ _ => false
    tasksCompleted := fun _ => 0, tokensEarned := fun _ => 0
    tasksCreated := fun _ => 0, lastTaskCompletionDate := fun _ => 0
    currentStreak := fun _ => 0, maxStreak := fun _ => 0, mintLog := [] }

/-- Shared mint tail of `mintBadge` and `_mintAchievement`: take the current
token id, increment the counter, `_safeMint` (nonzero recipient, fresh token),
`_setTokenURI`, store the badge metadata, set the award flag, emit
`BadgeMinted`/`MilestoneReached`. -/
def mintCore (user : Nat) (ty : AchievementType) (uri : String) (now : Nat)
    (s : State) : Except Err State :=
  if user = 0 then .error .zeroAddress
  else if s.owners s.tokenIdCounter ≠ 0 then .error .tokenExists
  else .ok { s with
    tokenIdCounter := s.tokenIdCounter + 1
    owners := fun i => if i = s.tokenIdCounter then user else s.owners i
    tokenURIs := fun i => if i = s.tokenIdCounter then uri else s.tokenURIs i
    badges := fun i => if i = s.tokenIdCounter then
        some { achievementType := ty, title := getAchievementTitle ty,
               description := getAchievementDescription ty, imageURI := uri,
               mintedAt := now, rarity := getAchievementRarity ty }
      else s.badges i
    hasAchievement := fun u t => if u = user ∧ t = ty then true else s.hasAchievement u t
    mintLog := s.mintLog ++ [(user, ty)] }

/-- `_mintAchievement(user, achievementType)`: mint with the default URI. -/
def mintAchievementI (user : Nat) (ty : AchievementType) (now : Nat)
    (s : State) : Except Err State :=
  mintCore user ty (getDefaultTokenURI ty) now s

/-- `mintBadge(recipient, achievementType, tokenURI)`: MINTER_ROLE only,
requires the achievement not already held. -/
def mintBadge (caller recipient : Nat) (ty : AchievementType) (uri : String)
    (now : Nat) (s : State) : Except Err State :=
  if caller ∈ s.minters then
    if s.hasAchievement recipient ty then .error .alreadyAwarded
    else mintCore recipient ty uri now s
  else .error .notAuthorized

/-- `_checkTaskAchievements(user)`: the if/else-if chain over
`tasksCompleted`. -/
def checkTaskAchievements (user now : Nat) (s : State) : Except Err State :=
  if s.tasksCompleted user = 1 ∧ s.hasAchievement user FIRST_TASK = false then
    mintAchievementI user FIRST_TASK now s
  else if 5 ≤ s.tasksCompleted user ∧ s.hasAchievement user TASK_MILESTONE_5 = false then
    mintAchievementI user TASK_MILESTONE_5 now s
  else if 10 ≤ s.tasksCompleted user ∧ s.hasAchievement user TASK_MILESTONE_10 = false then
    mintAchievementI user TASK_MILESTONE_10 now s
  else if 25 ≤ s.tasksCompleted user ∧ s.hasAchievement user TASK_MILESTONE_25 = false then
    mintAchievementI user TASK_MILESTONE_25 now s
  else if 50 ≤ s.tasksCompleted user ∧ s.hasAchievement user TASK_MILESTONE_50 = false then
    mintAchievementI user TASK_MILESTONE_50 now s
  else if 100 ≤ s.tasksCompleted user ∧ s.hasAchievement user TASK_MILESTONE_100 = false then
    mintAchievementI user TASK_MILESTONE_100 now s
  else .ok s

/-- `_checkTokenAchievements(user)`: the if/else-if chain over
`tokensEarned`. -/
def checkTokenAchievements (user now : Nat) (s : State) : Except Err State :=
  if 100 ≤ s.tokensEarned user ∧ s.hasAchievement user TOKEN_COLLECTOR_100 = false then
    mintAchievementI user TOKEN_COLLECTOR_100 now s
  else if 500 ≤ s.tokensEarned user ∧ s.hasAchievement user TOKEN_COLLECTOR_500 = false then
    mintAchievementI user TOKEN_COLLECTOR_500 now s
  else if 1000 ≤ s.tokensEarned user ∧ s.hasAchievement user TOKEN_COLLECTOR_1000 = false then
    mintAchievementI user TOKEN_COLLECTOR_1000 now s
  else .ok s

/-- `_checkStreakAchievements(user)`: the if/else-if chain over
`currentStreak`. -/
def checkStreakAchievements (user now : Nat) (s : State) : Except Err State :=
  if 7 ≤ s.currentStreak user ∧ s.hasAchievement user STREAK_7 = false then
    mintAchievementI user STREAK_7 now s
  else if 30 ≤ s.currentStreak user ∧ s.hasAchievement user STREAK_30 = false then
    mintAchievementI user STREAK_30 now s
  else .ok s

/-- `_checkCreatorAchievements(user)`. -/
def checkCreatorAchievements (user now : Nat) (s : State) : Except Err State :=
  if 10 ≤ s.tasksCreated user ∧ s.hasAchievement user COMMUNITY_BUILDER = false then
    mintAchievementI user COMMUNITY_BUILDER now s
  else .ok s

/-- Pointwise update of a `Nat → Nat` counter map. -/
def setc (m : Nat → Nat) (k v : Nat) : Nat → Nat :=
  fun x => if x = k then v else m x

/-- First statements of `updateTaskCompletion`: increment `tasksCompleted`,
add the reward to `tokensEarned`. -/
def updCounters (user tokensReward : Nat) (s : State) : State :=
  { s with
    tasksCompleted := setc s.tasksCompleted user (s.tasksCompleted user + 1)
    tokensEarned := setc s.tokensEarned user (s.tokensEarned user + tokensReward) }

/-- Streak branch of `updateTaskCompletion` with `today = now / 86400` and
`lastDay = lastTaskCompletionDate[user] / 86400`: `lastDay == 0` (treated as
"no previous completion") or `today == lastDay + 1` increments the streak,
`today > lastDay + 1` resets it to 1, and a same-day repeat leaves it. -/
def streakCore (user now : Nat) (s : State) : State :=
  if s.lastTaskCompletionDate user / 86400 = 0 ∨
      now / 86400 = s.lastTaskCompletionDate user / 86400 + 1 then
    { s with currentStreak := setc s.currentStreak user (s.currentStreak user + 1) }
  else if s.lastTaskCompletionDate user / 86400 + 1 < now / 86400 then
    { s with currentStreak := setc s.currentStreak user 1 }
  else s

/-- `if (currentStreak[user] > maxStreak[user]) maxStreak[user] = ...`. -/
def streakMax (user : Nat) (s : State) : State :=
  if s.maxStreak user < s.currentStreak user then
    { s with maxStreak := setc s.maxStreak user (s.currentStreak user) }
  else s

/-- `lastTaskCompletionDate[user] = block.timestamp`. -/
def streakStamp (user now : Nat) (s : State) : State :=
  { s with lastTaskCompletionDate := setc s.lastTaskCompletionDate user now }

/-- Streak block of `updateTaskCompletion` at `block.timestamp = now`, in
source order: streak update, `maxStreak` raise, completion-date stamp. -/
def updStreak (user now : Nat) (s : State) : State :=
  streakStamp user now (streakMax user (streakCore user now s))

/-- `updateTaskCompletion(user, tokensReward)` at `block.timestamp = now`:
MINTER_ROLE only; counter updates, the streak block, then the task, token
and streak achievement checks in source order. -/
def updateTaskCompletion (caller user tokensReward now : Nat) (s : State) :
    Except Err State :=
  if caller ∈ s.minters then
    checkTaskAchievements user now (updStreak user now (updCounters user tokensReward s))
      >>= checkTokenAchievements user now >>= checkStreakAchievements user now
  else .error .notAuthorized

/-- `updateTaskCreation(user)` at `block.timestamp = now`: MINTER_ROLE only;
increments `tasksCreated` and runs the creator achievement check. -/
def updateTaskCreation (caller user now : Nat) (s : State) : Except Err State :=
  if caller ∈ s.minters then
    let s1 := { s with tasksCreated := setc s.tasksCreated user (s.tasksCreated user + 1) }
    checkCreatorAchievements user now s1
  else .error .notAuthorized

/-- `grantMinterRole(account)`: DEFAULT_ADMIN_ROLE only; AccessControl's
`_grantRole` is a no-op when the role is already held. -/
def grantMinterRole (caller account : Nat) (s : State) : Except Err State :=
  if caller ∈ s.admins then
    if account ∈ s.minters then .ok s
    else .ok { s with minters := account :: s.minters }
  else .error .notAuthorized

/-- `revokeMinterRole(account)`: DEFAULT_ADMIN_ROLE only. -/
def revokeMinterRole (caller account : Nat) (s : State) : Except Err State :=
  if caller ∈ s.admins then
    .ok { s with minters := s.minters.filter (fun a => a ≠ account) }
  else .error .notAuthorized

/-- External transactions of the `AchievementBadge` contract. -/
inductive Op where
  | mintBadge (caller recipient : Nat) (ty : AchievementType) (uri : String) (now : Nat)
  | updateTaskCompletion (caller user tokensReward now : Nat)
  | updateTaskCreation (caller user now : Nat)
  | grantMinter (caller account : Nat)
  | revokeMinter (caller account : Nat)

/-- One transaction. -/
def step (op : Op) (s : State) : Except Err State :=
  match op with
  | .mintBadge c r ty u now => mintBadge c r ty u now s
  | .updateTaskCompletion c u r now => updateTaskCompletion c u r now s
  | .updateTaskCreation c u now => updateTaskCreation c u now s
  | .grantMinter c a => grantMinterRole c a s
  | .revokeMinter c a => revokeMinterRole c a s

/-- The state a transaction leaves behind (result on commit, unchanged state
on revert). -/
def stepK (op : Op) (s : State) : State :=
  match step op s with | .ok s' => s' | .error _ => s

/-- Run a transaction sequence; reverted transactions leave the state
unchanged. -/
def run (ops : List Op) (s : State) : State :=
  ops.foldl (fun st op => stepK op st) s

/-- Number of `BadgeMinted` events for a given (recipient, type) pair. -/
def countPair (p : Nat × AchievementType) (l : List (Nat × AchievementType)) : Nat :=
  (l.filter (fun q => q = p)).length

end Ach

namespace TA

/-- `TaskStruct` of the apply/assign `TaskContract` (field order as in the
source).  The mapping default — also what `delete tasks[id]` leaves behind —
is the all-zero record. -/
structure TaskStruct where
  id : Nat
  description : String
  reward : Nat
  completed : Bool
  worker : Nat
  creator : Nat
  deriving DecidableEq, Repr

/-- The zero `TaskStruct`. -/
def zeroTask : TaskStruct :=
  { id := 0, description := "", reward := 0, completed := false, worker := 0, creator := 0 }

/-- The ERC20 `RewardContract` (`HelpToken`): MINTER_ROLE holders and the
balance mapping (`mint` is the only operation the task contract uses). -/
structure Erc20 where
  minters : List Nat
  bal : Nat → Nat

/-- Combined state of the apply/assign `TaskContract`: its own storage, the
linked ERC20 reward token, and the linked `AchievementBadge` contract
(`achievementBadge = 0` means no badge contract is configured, so the
achievement hooks are skipped).  `taAddr` is the task contract's own
address, the `msg.sender` its sub-calls present. -/
structure State where
  tasks : Nat → TaskStruct
  userTasks : Nat → List Nat
  taskApplicants : Nat → List Nat
  hasApplied : Nat → Nat → Bool
  taskCounter : Nat
  rewardToken : Erc20
  achievementBadge : Nat
  badge : Ach.State
  taAddr : Nat

/-- `createTask(description, reward)` at `block.timestamp = now`: increments
the counter, stores the task (uncompleted, no worker), records it under the
caller's `userTasks`, and — when a badge contract is configured — calls
`updateTaskCreation(msg.sender)` on it (a revert there reverts the whole
call). -/
def createTask (caller : Nat) (description : String) (reward now : Nat)
    (s : State) : Except Err State :=
  let newId := s.taskCounter + 1
  let s1 : State := { s with
    taskCounter := newId
    tasks := fun i => if i = newId then
        { id := newId, description := description, reward := reward,
          completed := false, worker := 0, creator := caller }
      else s.tasks i
    userTasks := fun u => if u = caller then s.userTasks u ++ [newId] else s.userTasks u }
  if s.achievementBadge ≠ 0 then
    match Ach.updateTaskCreation s.taAddr caller now s1.badge with
    | .ok b' => .ok { s1 with badge := b' }
    | .error e => .error e
  else .ok s1

/-- `applyForTask(taskId)`: id in range, task not completed, no worker
assigned, caller has not applied; records the application. -/
def applyForTask (caller id : Nat) (s : State) : Except Err State :=
  if 0 < id ∧ id ≤ s.taskCounter then
    if (s.tasks id).completed then .error .invalidState
    else if (s.tasks id).worker ≠ 0 then .error .invalidState
    else if s.hasApplied id caller then .error .alreadyApplied
    else .ok { s with
      taskApplicants := fun i => if i = id then s.taskApplicants i ++ [caller] else s.taskApplicants i
      hasApplied := fun i u => if i = id ∧ u = caller then true else s.hasApplied i u }
  else .error .notFound

/-- `assignTask(taskId, worker)`: id in range, caller is the creator, task
neither completed nor assigned, worker has applied; sets the worker. -/
def assignTask (caller id worker : Nat) (s : State) : Except Err State :=
  if 0 < id ∧ id ≤ s.taskCounter then
    if caller = (s.tasks id).creator then
      if (s.tasks id).completed then .error .invalidState
      else if (s.tasks id).worker ≠ 0 then .error .invalidState
      else if s.hasApplied id worker then
        .ok { s with tasks := fun i => if i = id then
                { s.tasks id with worker := worker }
              else s.tasks i }
      else .error .invalidState
    else .error .notAuthorized
  else .error .notFound

/-- `completeTask(taskId)` at `block.timestamp = now`: id in range, caller is
the creator, task not completed, worker assigned; marks it completed, mints
the ERC20 reward to the worker (`onlyRole(MINTER_ROLE)` on the token), and
— when a badge contract is configured — calls
`updateTaskCompletion(worker, reward)`. -/
def completeTask (caller id now : Nat) (s : State) : Except Err State :=
  if 0 < id ∧ id ≤ s.taskCounter then
    if caller = (s.tasks id).creator then
      if (s.tasks id).completed then .error .invalidState
      else if (s.tasks id).worker = 0 then .error .invalidState
      else
        let worker := (s.tasks id).worker
        let reward := (s.tasks id).reward
        let s1 : State := { s with tasks := fun i => if i = id then
                              { s.tasks id with completed := true }
                            else s.tasks i }
        if s.taAddr ∈ s.rewardToken.minters then
          let s2 : State := { s1 with rewardToken := { s1.rewardToken with
            bal := fun a => if a = worker then s1.rewardToken.bal a + reward
                            else s1.rewardToken.bal a } }
          if s.achievementBadge ≠ 0 then
            match Ach.updateTaskCompletion s.taAddr worker reward now s2.badge with
            | .ok b' => .ok { s2 with badge := b' }
            | .error e => .error e
          else .ok s2
        else .error .notAuthorized
    else .error .notAuthorized
  else .error .notFound

/-- `cancelTask(taskId)`: id in range, caller is the creator, task neither
completed nor assigned; `delete tasks[taskId]` resets the record to the
all-zero struct (the counter, applicants and `hasApplied` are untouched). -/
def cancelTask (caller id : Nat) (s : State) : Except Err State :=
  if 0 < id ∧ id ≤ s.taskCounter then
    if caller = (s.tasks id).creator then
      if (s.tasks id).completed then .error .invalidState
      else if (s.tasks id).worker ≠ 0 then .error .invalidState
      else .ok { s with tasks := fun i => if i = id then zeroTask else s.tasks i }
    else .error .notAuthorized
  else .error .notFound

/-- `getTask(taskId)`: id in range; returns the stored record (the all-zero
record for a cancelled task). -/
def getTask (id : Nat) (s : State) : Except Err TaskStruct :=
  if 0 < id ∧ id ≤ s.taskCounter then .ok (s.tasks id) else .error .notFound

/-- `getTasksCount()`. -/
def getTasksCount (s : State) : Nat := s.taskCounter

/-- External transactions of the apply/assign task contract. -/
inductive Op where
  | create (caller : Nat) (description : String) (reward now : Nat)
  | apply (caller id : Nat)
  | assign (caller id worker : Nat)
  | complete (caller id now : Nat)
  | cancel (caller id : Nat)

/-- One transaction. -/
def step (op : Op) (s : State) : Except Err State :=
  match op with
  | .create c d r now => createTask c d r now s
  | .apply c id => applyForTask c id s
  | .assign c id w => assignTask c id w s
  | .complete c id now => completeTask c id now s
  | .cancel c id => cancelTask c id s

/-- The state a transaction leaves behind (result on commit, unchanged state
on revert). -/
def stepK (op : Op) (s : State) : State :=
  match step op s with | .ok s' => s' | .error _ => s

/-- Run a transaction sequence; reverted transactions leave the state
unchanged. -/
def run (ops : List Op) (s : State) : State :=
  ops.foldl (fun st op => stepK op st) s

/-- Fresh deployment with no badge contract configured: empty storage,
reward token with the task contract (`addr`) as its only minter. -/
def taInit (addr : Nat) : State :=
  { tasks := fun _ => zeroTask, userTasks := fun _ => []
    taskApplicants := fun _ => [], hasApplied := fun _ _ => false
    taskCounter := 0
    rewardToken := { minters := [addr], bal := fun _ => 0 }
    achievementBadge := 0, badge := Ach.achInit addr, taAddr := addr }

end TA

/-! ## Concrete deployment states used by witnesses -/

/-- A fresh combined deployment of the status-machine task contract (address
100) and the reward ledger, with the task contract granted MINTER_ROLE. -/
def tb0 : TB.State :=
  { taskCounter := 0, tasks := fun _ => TB.noTask
    rl := { paused := false, minters := [100], pausers := [], bal := fun _ _ => 0 }
    tbAddr := 100 }

/-- After `createTask` by 7 (reward: 50 of asset 0) and `claimTask` by 8. -/
def tbW2 : TB.State := TB.run [.create 7 "" [0] [50], .claim 8 1] tb0

/-- After 8 additionally completed task 1. -/
def tbW3 : TB.State := TB.run [.create 7 "" [0] [50], .claim 8 1, .complete 8 1] tb0

/-- After 7 additionally verified task 1. -/
def tbW4 : TB.State :=
  TB.run [.create 7 "" [0] [50], .claim 8 1, .complete 8 1, .verify 7 1] tb0

/-! ## Characterization equalities (zeta-reduced forms of the definitions) -/

/-- `completeTask` with its storage reads inlined. -/
theorem TB.completeTask_eq (c id : Nat) (s : TB.State) :
    TB.completeTask c id s =
      (if (s.tasks id).id = 0 then (.error .notFound : Except Err TB.State)
       else if (s.tasks id).completer = c then
         if (s.tasks id).status = .inProgress then
           .ok { s with tasks := fun i => if i = id then
                   { s.tasks id with status := .completed } else s.tasks i }
         else .error .invalidState
       else .error .notAuthorized) := rfl

/-- `createTask` (status-machine variant) with its let inlined. -/
theorem TB.createTask_eq (c : Nat) (uri : String) (ids amounts : List Nat) (s : TB.State) :
    TB.createTask c uri ids amounts s =
      (if ids.length = amounts.length then
         if 0 < ids.length then
           .ok { s with
              taskCounter := s.taskCounter + 1
              tasks := fun i => if i = s.taskCounter + 1 then
                  { id := s.taskCounter + 1, creator := c, completer := 0,
                    metadataURI := uri, status := .created,
                    rewardIds := ids, rewardAmounts := amounts }
                else s.tasks i }
         else (.error .invalidReward : Except Err TB.State)
       else .error .lengthMismatch) := rfl

/-! ## C4: completeTask authorization and state gating -/

/-- C4: on an existing task, `completeTask` succeeds exactly when the caller
is the assigned worker (completer) and the task is `InProgress`; success
transitions only this task to `Completed`; a caller other than the worker
gets the authorization error, and the worker calling in any other lifecycle
state gets the invalid-state error. -/
theorem completeTask_worker_inProgress (c id : Nat) (s : TB.State)
    (hex : (s.tasks id).id ≠ 0) :
    ((∃ s', TB.completeTask c id s = .ok s') ↔
        (s.tasks id).completer = c ∧ (s.tasks id).status = .inProgress) ∧
    (∀ s', TB.completeTask c id s = .ok s' →
        s'.tasks id = { s.tasks id with status := .completed } ∧
        (∀ j, j ≠ id → s'.tasks j = s.tasks j) ∧
        s'.taskCounter = s.taskCounter ∧ s'.rl = s.rl) ∧
    ((s.tasks id).completer ≠ c → TB.completeTask c id s = .error .notAuthorized) ∧
    ((s.tasks id).completer = c → (s.tasks id).status ≠ .inProgress →
        TB.completeTask c id s = .error .invalidState) := by
  refine ⟨⟨?_, ?_⟩, ?_, ?_, ?_⟩
  · rintro ⟨s', h⟩
    rw [TB.completeTask_eq] at h
    split_ifs at h with h1 h2 h3 <;> simp_all
  · rintro ⟨h2, h3⟩
    exact ⟨{ s with tasks := fun i => if i = id then
               { s.tasks id with status := .completed } else s.tasks i },
           by rw [TB.completeTask_eq, if_neg hex, if_pos h2, if_pos h3]⟩
  · intro s' h
    rw [TB.completeTask_eq] at h
    split_ifs at h with h1 h2 h3 <;> try exact Except.noConfusion h
    injection h with h'
    subst h'
    exact ⟨by simp, fun j hj => by simp [hj], rfl, rfl⟩
  · intro hc
    rw [TB.completeTask_eq, if_neg hex, if_neg hc]
  · intro hc hst
    rw [TB.completeTask_eq, if_neg hex, if_pos hc, if_neg hst]

/-- C4 witness: in the concrete deployment where 8 claimed task 1, the
theorem yields success of `completeTask` by the worker 8 on the
`InProgress` task. -/
theorem completeTask_worker_inProgress_witness :
    exceptOk (TB.completeTask 8 1 tbW2) = true := by
  obtain ⟨s', h⟩ :=
    (completeTask_worker_inProgress 8 1 tbW2 (by decide)).1.mpr ⟨by decide, by decide⟩
  simp [exceptOk, h]

/-! ## C5: createTask reward-spec validation -/

/-- C5 counterexample: a reward spec with a zero amount is accepted —
`createTask` with rewardAmounts `[0]` succeeds and stores the task, while the
claim demands an `InvalidReward` failure and no stored task. -/
theorem createTask_zero_amount_accepted :
    exceptOk (TB.createTask 7 "" [0] [0] tb0) = true ∧
    ((TB.run [.create 7 "" [0] [0]] tb0).tasks 1).id = 1 ∧
    ((TB.run [.create 7 "" [0] [0]] tb0).tasks 1).rewardAmounts = [0] :=
  ⟨by decide, by decide, by decide⟩

/-- C5 amended: `createTask` succeeds iff the reward spec names at least one
pair and the id and amount arrays have equal length — amounts themselves are
not validated, so zero amounts are stored as given; mismatched arrays fail
with the length error, an empty spec with the invalid-reward error, and on
failure no task is stored. -/
theorem createTask_validation (c : Nat) (uri : String) (ids amounts : List Nat)
    (s : TB.State) :
    ((∃ s', TB.createTask c uri ids amounts s = .ok s') ↔
        ids ≠ [] ∧ ids.length = amounts.length) ∧
    (∀ s', TB.createTask c uri ids amounts s = .ok s' →
        s'.taskCounter = s.taskCounter + 1 ∧
        s'.tasks (s.taskCounter + 1) =
          { id := s.taskCounter + 1, creator := c, completer := 0,
            metadataURI := uri, status := .created,
            rewardIds := ids, rewardAmounts := amounts } ∧
        (∀ j, j ≠ s.taskCounter + 1 → s'.tasks j = s.tasks j) ∧
        s'.rl = s.rl) ∧
    (ids.length ≠ amounts.length →
        TB.createTask c uri ids amounts s = .error .lengthMismatch) ∧
    (ids = [] → ids.length = amounts.length →
        TB.createTask c uri ids amounts s = .error .invalidReward) := by
  refine ⟨⟨?_, ?_⟩, ?_, ?_, ?_⟩
  · rintro ⟨s', h⟩
    rw [TB.createTask_eq] at h
    split_ifs at h with h1 h2 <;>
      first
        | exact ⟨List.ne_nil_of_length_pos h2, h1⟩
        | exact Except.noConfusion h
  · rintro ⟨h1, h2⟩
    exact ⟨{ s with
              taskCounter := s.taskCounter + 1
              tasks := fun i => if i = s.taskCounter + 1 then
                  { id := s.taskCounter + 1, creator := c, completer := 0,
                    metadataURI := uri, status := .created,
                    rewardIds := ids, rewardAmounts := amounts }
                else s.tasks i },
           by rw [TB.createTask_eq, if_pos h2, if_pos (List.length_pos.mpr h1)]⟩
  · intro s' h
    rw [TB.createTask_eq] at h
    split_ifs at h with h1 h2 <;> try exact Except.noConfusion h
    injection h with h'
    subst h'
    exact ⟨rfl, by simp, fun j hj => by simp [hj], rfl⟩
  · intro h1
    rw [TB.createTask_eq, if_neg h1]
  · intro h1 h2
    rw [TB.createTask_eq, if_pos h2, if_neg (by simp [h1])]

/-- C5 witness: a nonempty equal-length spec makes the amended theorem
yield success on the fresh deployment. -/
theorem createTask_validation_witness :
    exceptOk (TB.createTask 7 "" [3] [10] tb0) = true := by
  obtain ⟨s', h⟩ := (createTask_validation 7 "" [3] [10] tb0).1.mpr ⟨by decide, by decide⟩
  simp [exceptOk, h]

/-! ## C6: mintReward gating -/

/-- The reward ledger used by the C6 statements: principal 9 holds
MINTER_ROLE, the ledger is not paused. -/
def rl9 : RL.State := { paused := false, minters := [9], pausers := [], bal := fun _ _ => 0 }

/-- C6 counterexample: `mintReward` with amount 0, called by a minter on the
unpaused ledger, succeeds — the claim demands an `InvalidAmount` failure for
amount 0. -/
theorem mintReward_zero_amount_accepted :
    9 ∈ rl9.minters ∧ rl9.paused = false ∧
    exceptOk (RL.mintReward 9 5 0 0 rl9) = true :=
  ⟨by decide, by decide, by decide⟩

/-- C6 amended: `mintReward` succeeds iff the caller holds MINTER_ROLE, the
ledger is not paused and the recipient is nonzero — the amount is not
validated (zero is accepted) — failing with the authorization error without
the role and the paused error while paused; on success the recipient's
balance for the asset grows by exactly the amount and no other balance
changes. -/
theorem mintReward_spec (caller rcpt id amount : Nat) (s : RL.State) :
    ((∃ s', RL.mintReward caller rcpt id amount s = .ok s') ↔
        caller ∈ s.minters ∧ s.paused = false ∧ rcpt ≠ 0) ∧
    (∀ s', RL.mintReward caller rcpt id amount s = .ok s' →
        (∀ a i, s'.bal a i = s.bal a i + (if a = rcpt ∧ i = id then amount else 0)) ∧
        s'.paused = s.paused ∧ s'.minters = s.minters ∧ s'.pausers = s.pausers) ∧
    (caller ∉ s.minters → RL.mintReward caller rcpt id amount s = .error .notAuthorized) ∧
    (caller ∈ s.minters → s.paused = true →
        RL.mintReward caller rcpt id amount s = .error .paused) ∧
    (caller ∈ s.minters → s.paused = false → rcpt = 0 →
        RL.mintReward caller rcpt id amount s = .error .zeroAddress) := by
  refine ⟨⟨?_, ?_⟩, ?_, ?_, ?_, ?_⟩
  · rintro ⟨s', h⟩
    unfold RL.mintReward at h
    split_ifs at h with h1 h2 h3 <;> simp_all
  · rintro ⟨h1, h2, h3⟩
    exact ⟨{ s with bal := fun a i => if a = rcpt ∧ i = id then s.bal a i + amount
                            else s.bal a i },
           by unfold RL.mintReward
              rw [if_pos h1, if_neg (by simp [h2]), if_neg h3]⟩
  · intro s' h
    unfold RL.mintReward at h
    split_ifs at h with h1 h2 h3 <;> try exact Except.noConfusion h
    injection h with h'
    subst h'
    refine ⟨fun a i => ?_, rfl, rfl, rfl⟩
    by_cases hai : a = rcpt ∧ i = id <;> simp [hai]
  · intro h1
    unfold RL.mintReward
    rw [if_neg h1]
  · intro h1 h2
    unfold RL.mintReward
    rw [if_pos h1, if_pos (by simp [h2])]
  · intro h1 h2 h3
    unfold RL.mintReward
    rw [if_pos h1, if_neg (by simp [h2]), if_pos h3]

/-- C6 witness: a minter minting 3 of asset 0 to user 5 on the unpaused
ledger succeeds by the amended theorem. -/
theorem mintReward_spec_witness :
    exceptOk (RL.mintReward 9 5 0 3 rl9) = true := by
  obtain ⟨s', h⟩ := (mintReward_spec 9 5 0 3 rl9).1.mpr ⟨by decide, by decide, by decide⟩
  simp [exceptOk, h]

/-! ## C10 and C7: cancelTask leaves the id valid and re-openable -/

/-- After `createTask` by 7 (reward 50) on a fresh apply/assign deployment. -/
def taS1 : TA.State := TA.run [.create 7 "d" 50 0] (TA.taInit 100)

/-- After 7 additionally cancelled task 1. -/
def taS2 : TA.State := TA.run [.create 7 "d" 50 0, .cancel 7 1] (TA.taInit 100)

/-- C10: a successful `cancelTask` leaves `taskCounter` (hence
`getTasksCount`) unchanged, and `getTask` on the cancelled id still succeeds,
returning the all-zero record (creator and worker 0, reward 0, not
completed) instead of a not-found error. -/
theorem cancelTask_keeps_id_valid (c id : Nat) (s s' : TA.State)
    (h : TA.cancelTask c id s = .ok s') :
    s'.taskCounter = s.taskCounter ∧
    TA.getTasksCount s' = TA.getTasksCount s ∧
    TA.getTask id s' = .ok TA.zeroTask ∧
    TA.zeroTask.creator = 0 ∧ TA.zeroTask.worker = 0 ∧
    TA.zeroTask.reward = 0 ∧ TA.zeroTask.completed = false := by
  unfold TA.cancelTask at h
  split_ifs at h with h1 h2 h3 h4 <;> try exact Except.noConfusion h
  injection h with h'
  subst h'
  refine ⟨rfl, rfl, ?_, rfl, rfl, rfl, rfl⟩
  unfold TA.getTask
  rw [if_pos h1]
  simp

/-- C10 witness: on the concrete deployment, cancelling the created task 1
keeps `getTask 1` succeeding with the zero record. -/
theorem cancelTask_keeps_id_valid_witness :
    TA.getTask 1 taS2 = .ok TA.zeroTask :=
  (cancelTask_keeps_id_valid 7 1 taS1 taS2 rfl).2.2.1

/-- C7 counterexample: cancelling task 1 succeeds, and a subsequent
`applyForTask` on the cancelled id by a fresh principal also succeeds —
the claim demands a `TaskNotOpen` failure after any successful cancel. -/
theorem applyForTask_cancelled_succeeds :
    exceptOk (TA.cancelTask 7 1 taS1) = true ∧
    exceptOk (TA.applyForTask 8 1 taS2) = true :=
  ⟨by decide, by decide⟩

/-- C7 amended: cancellation does not close the task to applications —
`delete tasks[id]` zeroes the record (unassigned, uncompleted) while
`hasApplied` persists, so after a successful `cancelTask` an `applyForTask`
on that id succeeds for every caller who had not applied before the
cancellation and fails with `AlreadyApplied` for every caller who had. -/
theorem applyForTask_after_cancel (c id : Nat) (s s' : TA.State)
    (h : TA.cancelTask c id s = .ok s') (c' : Nat) :
    (∀ i u, s'.hasApplied i u = s.hasApplied i u) ∧
    (s.hasApplied id c' = false →
        TA.applyForTask c' id s' = .ok { s' with
          taskApplicants := fun i => if i = id then s'.taskApplicants i ++ [c']
                                     else s'.taskApplicants i
          hasApplied := fun i u => if i = id ∧ u = c' then true
                                   else s'.hasApplied i u }) ∧
    (s.hasApplied id c' = true → TA.applyForTask c' id s' = .error .alreadyApplied) := by
  unfold TA.cancelTask at h
  split_ifs at h with h1 h2 h3 h4 <;> try exact Except.noConfusion h
  injection h with h'
  subst h'
  refine ⟨fun i u => rfl, ?_, ?_⟩
  · intro hna
    unfold TA.applyForTask
    rw [if_pos h1, if_neg (by simp [TA.zeroTask]), if_neg (by simp [TA.zeroTask]),
        if_neg (by simp [hna])]
  · intro hha
    unfold TA.applyForTask
    rw [if_pos h1, if_neg (by simp [TA.zeroTask]), if_neg (by simp [TA.zeroTask]),
        if_pos (by simp [hha])]

/-- C7 witness: the amended theorem applied to the concrete cancelled task —
the fresh principal 8 applies successfully. -/
theorem applyForTask_after_cancel_witness :
    exceptOk (TA.applyForTask 8 1 taS2) = true := by
  have h := (applyForTask_after_cancel 7 1 taS1 taS2 rfl 8).2.1 (by decide)
  simp [exceptOk, h]

/-! ## C1: verification pays exactly once -/

/-- `claimTask` with its storage reads inlined. -/
theorem TB.claimTask_eq (c id : Nat) (s : TB.State) :
    TB.claimTask c id s =
      (if (s.tasks id).id = 0 then (.error .notFound : Except Err TB.State)
       else if (s.tasks id).status = .created then
         .ok { s with tasks := fun i => if i = id then
                 { s.tasks id with status := .inProgress, completer := c }
               else s.tasks i }
       else .error .invalidState) := rfl

/-- `verifyTask` with its storage reads and intermediate state inlined. -/
theorem TB.verifyTask_eq (c id : Nat) (s : TB.State) :
    TB.verifyTask c id s =
      (if (s.tasks id).id = 0 then (.error .notFound : Except Err TB.State)
       else if c = (s.tasks id).creator then
         if (s.tasks id).status = .completed then
           if (s.tasks id).completer = 0 then .error .invalidState
           else
             match (if (s.tasks id).rewardIds.length = 1 then
                      RL.mintReward s.tbAddr (s.tasks id).completer
                        ((s.tasks id).rewardIds.headD 0)
                        ((s.tasks id).rewardAmounts.headD 0) s.rl
                    else
                      RL.mintBatchReward s.tbAddr (s.tasks id).completer
                        (s.tasks id).rewardIds (s.tasks id).rewardAmounts s.rl) with
             | .ok rl' => .ok { s with
                 tasks := fun i => if i = id then
                     { s.tasks id with status := .verified }
                   else s.tasks i
                 rl := rl' }
             | .error e => .error e
         else .error .invalidState
       else .error .notAuthorized) := rfl

/-- A committed `mintReward` changes exactly the recipient's balance of the
minted asset, by the minted amount. -/
theorem RL.mintReward_ok {caller rcpt id amount : Nat} {s s' : RL.State}
    (h : RL.mintReward caller rcpt id amount s = .ok s') :
    s'.paused = s.paused ∧ s'.minters = s.minters ∧ s'.pausers = s.pausers ∧
    ∀ a i, s'.bal a i = s.bal a i + (if a = rcpt ∧ i = id then amount else 0) := by
  unfold RL.mintReward at h
  split_ifs at h <;> try exact Except.noConfusion h
  injection h with h'
  subst h'
  refine ⟨rfl, rfl, rfl, fun a i => ?_⟩
  by_cases hai : a = rcpt ∧ i = id <;> simp [hai]

/-- Unfolding the `_mintBatch` credit loop: each balance grows by the summed
amounts of the matching pairs (for the recipient), else stays. -/
theorem RL.creditBatch_bal (rcpt : Nat) (pairs : List (Nat × Nat))
    (bal : Nat → Nat → Nat) (a i : Nat) :
    RL.creditBatch rcpt pairs bal a i =
      bal a i + (if a = rcpt then
          ((pairs.filter (fun p => p.1 = i)).map (fun p => p.2)).sum
        else 0) := by
  induction pairs generalizing bal with
  | nil => simp [RL.creditBatch]
  | cons p rest ih =>
    have hstep : RL.creditBatch rcpt (p :: rest) bal =
        RL.creditBatch rcpt rest
          (fun a i => if a = rcpt ∧ i = p.1 then bal a i + p.2 else bal a i) := rfl
    rw [hstep, ih]
    by_cases ha : a = rcpt
    · by_cases hp : p.1 = i
      · simp only [ha, hp, List.filter_cons]
        simp [← hp]
        omega
      · have : ¬ (a = rcpt ∧ i = p.1) := by
          rintro ⟨_, rfl⟩
          exact hp rfl
        simp only [List.filter_cons]
        simp [this, hp]
    · have : ¬ (a = rcpt ∧ i = p.1) := by
        rintro ⟨h1, _⟩
        exact ha h1
      simp [this, ha]

/-- A committed `mintBatchReward` credits the recipient the `rewardTotal` of
the batch for every asset and changes nothing else. -/
theorem RL.mintBatchReward_ok {caller rcpt : Nat} {ids amounts : List Nat}
    {s s' : RL.State}
    (h : RL.mintBatchReward caller rcpt ids amounts s = .ok s') :
    s'.paused = s.paused ∧ s'.minters = s.minters ∧ s'.pausers = s.pausers ∧
    ∀ a i, s'.bal a i = s.bal a i +
      (if a = rcpt then TB.rewardTotal ids amounts i else 0) := by
  unfold RL.mintBatchReward at h
  split_ifs at h <;> try exact Except.noConfusion h
  injection h with h'
  subst h'
  exact ⟨rfl, rfl, rfl, fun a i => RL.creditBatch_bal rcpt (ids.zip amounts) s.bal a i⟩

/-- `rewardTotal` of a one-element id list. -/
theorem TB.rewardTotal_single (x : Nat) (amounts : List Nat) (i : Nat) :
    TB.rewardTotal [x] amounts i = if x = i then amounts.headD 0 else 0 := by
  cases amounts <;> by_cases h : x = i <;> simp [TB.rewardTotal, h]

/-- `verifyTask` on a `Verified` task always reverts: with the invalid-state
error for the creator and the authorization error for anyone else. -/
theorem TB.verify_verified_error (c id : Nat) (s : TB.State)
    (hex : (s.tasks id).id ≠ 0) (hv : (s.tasks id).status = .verified) :
    TB.verifyTask c id s =
      .error (if c = (s.tasks id).creator then .invalidState else .notAuthorized) := by
  rw [TB.verifyTask_eq, if_neg hex]
  by_cases hc : c = (s.tasks id).creator
  · rw [if_pos hc, if_neg (by simp [hv]), if_pos hc]
  · rw [if_neg hc, if_neg hc]

/-- A committing transaction yields its result. -/
theorem TB.taskStepK_commit {op : TB.Op} {s s' : TB.State} (h : TB.step op s = .ok s') :
    TB.stepK op s = s' := by
  unfold TB.stepK
  rw [h]

/-- A reverting transaction leaves the state unchanged. -/
theorem TB.taskStepK_revert {op : TB.Op} {s : TB.State} {e : Err}
    (h : TB.step op s = .error e) : TB.stepK op s = s := by
  unfold TB.stepK
  rw [h]

/-- Once a task is `Verified`, no transaction whatsoever changes its record,
and the task counter never drops below its id. -/
theorem TB.stepK_preserves_verified (op : TB.Op) (s : TB.State) (id : Nat)
    (hle : id ≤ s.taskCounter) (hex : (s.tasks id).id ≠ 0)
    (hv : (s.tasks id).status = .verified) :
    id ≤ (TB.stepK op s).taskCounter ∧ (TB.stepK op s).tasks id = s.tasks id := by
  cases hstep : TB.step op s with
  | error e => rw [TB.taskStepK_revert hstep]; exact ⟨hle, rfl⟩
  | ok s₂ =>
    rw [TB.taskStepK_commit hstep]
    cases op with
    | create c u ids amts =>
      rw [show TB.step (.create c u ids amts) s = TB.createTask c u ids amts s from rfl,
          TB.createTask_eq] at hstep
      split_ifs at hstep <;> try exact Except.noConfusion hstep
      injection hstep with h'
      subst h'
      refine ⟨by simpa using Nat.le_succ_of_le hle, ?_⟩
      have hne : id ≠ s.taskCounter + 1 := by omega
      simp [hne]
    | claim c' id' =>
      rw [show TB.step (.claim c' id') s = TB.claimTask c' id' s from rfl,
          TB.claimTask_eq] at hstep
      split_ifs at hstep with g1 g2 <;> try exact Except.noConfusion hstep
      injection hstep with h'
      subst h'
      by_cases hid : id = id'
      · subst hid
        rw [hv] at g2
        exact absurd g2 (by simp)
      · exact ⟨hle, by simp [hid]⟩
    | complete c' id' =>
      rw [show TB.step (.complete c' id') s = TB.completeTask c' id' s from rfl,
          TB.completeTask_eq] at hstep
      split_ifs at hstep with g1 g2 g3 <;> try exact Except.noConfusion hstep
      injection hstep with h'
      subst h'
      by_cases hid : id = id'
      · subst hid
        rw [hv] at g3
        exact absurd g3 (by simp)
      · exact ⟨hle, by simp [hid]⟩
    | verify c' id' =>
      rw [show TB.step (.verify c' id') s = TB.verifyTask c' id' s from rfl,
          TB.verifyTask_eq] at hstep
      split_ifs at hstep with g1 g2 g3 g4 glen <;> try exact Except.noConfusion hstep
      all_goals split at hstep <;> try exact Except.noConfusion hstep
      all_goals (
        injection hstep with h'
        subst h'
        by_cases hid : id = id'
        · subst hid
          rw [hv] at g3
          exact absurd g3 (by simp)
        · exact ⟨hle, by simp [hid]⟩)
    | rlMint c' r i a =>
      rw [show TB.step (.rlMint c' r i a) s =
          (match RL.mintReward c' r i a s.rl with
           | .ok rl' => .ok { s with rl := rl' }
           | .error e => .error e) from rfl] at hstep
      cases hm : RL.mintReward c' r i a s.rl with
      | error e => rw [hm] at hstep; exact Except.noConfusion hstep
      | ok rl' =>
        rw [hm] at hstep
        injection hstep with h'
        subst h'
        exact ⟨hle, rfl⟩
    | rlMintBatch c' r ids amts =>
      rw [show TB.step (.rlMintBatch c' r ids amts) s =
          (match RL.mintBatchReward c' r ids amts s.rl with
           | .ok rl' => .ok { s with rl := rl' }
           | .error e => .error e) from rfl] at hstep
      cases hm : RL.mintBatchReward c' r ids amts s.rl with
      | error e => rw [hm] at hstep; exact Except.noConfusion hstep
      | ok rl' =>
        rw [hm] at hstep
        injection hstep with h'
        subst h'
        exact ⟨hle, rfl⟩
    | rlPause c' =>
      rw [show TB.step (.rlPause c') s =
          (match RL.pause c' s.rl with
           | .ok rl' => .ok { s with rl := rl' }
           | .error e => .error e) from rfl] at hstep
      cases hm : RL.pause c' s.rl with
      | error e => rw [hm] at hstep; exact Except.noConfusion hstep
      | ok rl' =>
        rw [hm] at hstep
        injection hstep with h'
        subst h'
        exact ⟨hle, rfl⟩
    | rlUnpause c' =>
      rw [show TB.step (.rlUnpause c') s =
          (match RL.unpause c' s.rl with
           | .ok rl' => .ok { s with rl := rl' }
           | .error e => .error e) from rfl] at hstep
      cases hm : RL.unpause c' s.rl with
      | error e => rw [hm] at hstep; exact Except.noConfusion hstep
      | ok rl' =>
        rw [hm] at hstep
        injection hstep with h'
        subst h'
        exact ⟨hle, rfl⟩

/-- The `Verified` record of a task survives every later transaction
sequence unchanged. -/
theorem TB.run_preserves_verified (ops : List TB.Op) (s : TB.State) (id : Nat)
    (hle : id ≤ s.taskCounter) (hex : (s.tasks id).id ≠ 0)
    (hv : (s.tasks id).status = .verified) :
    id ≤ (TB.run ops s).taskCounter ∧ (TB.run ops s).tasks id = s.tasks id := by
  induction ops generalizing s with
  | nil => exact ⟨hle, rfl⟩
  | cons op rest ih =>
    have hstep := TB.stepK_preserves_verified op s id hle hex hv
    have hrun : TB.run (op :: rest) s = TB.run rest (TB.stepK op s) := rfl
    rw [hrun]
    have h2 := ih (TB.stepK op s) hstep.1
      (by rw [hstep.2]; exact hex) (by rw [hstep.2]; exact hv)
    exact ⟨h2.1, by rw [h2.2, hstep.2]⟩

/-- C1: a successful `verifyTask` happens exactly at the Completed→Verified
transition (status was `Completed`, becomes `Verified`, caller is the
creator, a worker is assigned); it credits the worker's balances by the
task's full reward specification; afterwards — after any further transaction
sequence whatsoever — every `verifyTask` on the same id reverts (with the
invalid-state error for the creator, the authorization error otherwise) and
so never mints again; and no create/claim/complete transaction ever touches
reward balances, so the lifetime credit for the task is exactly this one. -/
theorem verifyTask_pays_exactly_once (c id : Nat) (s s' : TB.State)
    (hle : id ≤ s.taskCounter)
    (h : TB.verifyTask c id s = .ok s') :
    (s.tasks id).status = .completed ∧
    c = (s.tasks id).creator ∧
    (s.tasks id).completer ≠ 0 ∧
    s'.tasks id = { s.tasks id with status := .verified } ∧
    (∀ j, j ≠ id → s'.tasks j = s.tasks j) ∧
    s'.taskCounter = s.taskCounter ∧
    (∀ a i, s'.rl.bal a i = s.rl.bal a i +
        (if a = (s.tasks id).completer then
           TB.rewardTotal (s.tasks id).rewardIds (s.tasks id).rewardAmounts i
         else 0)) ∧
    (∀ ops c₂, TB.verifyTask c₂ id (TB.run ops s') =
        .error (if c₂ = (s.tasks id).creator then .invalidState else .notAuthorized)) ∧
    (∀ c₂ uri ids amts s₂ s₃, TB.createTask c₂ uri ids amts s₂ = .ok s₃ → s₃.rl = s₂.rl) ∧
    (∀ c₂ id₂ s₂ s₃, TB.claimTask c₂ id₂ s₂ = .ok s₃ → s₃.rl = s₂.rl) ∧
    (∀ c₂ id₂ s₂ s₃, TB.completeTask c₂ id₂ s₂ = .ok s₃ → s₃.rl = s₂.rl) := by
  rw [TB.verifyTask_eq] at h
  split_ifs at h with h1 h2 h3 h4 hlen <;> try exact Except.noConfusion h
  all_goals (
    split at h <;> try exact Except.noConfusion h
    injection h with h'
    subst h')
  -- single-pair mint path
  case _ rl' hm =>
    refine ⟨h3, h2, h4, by simp, fun j hj => by simp [hj], rfl, ?_, ?_, ?_, ?_, ?_⟩
    · intro a i
      have hb := (RL.mintReward_ok hm).2.2.2 a i
      show rl'.bal a i = _
      rw [hb]
      obtain ⟨x, hx⟩ := List.length_eq_one.mp hlen
      rw [hx, TB.rewardTotal_single]
      by_cases hc1 : a = (s.tasks id).completer
      · by_cases hc2 : i = x
        · simp [hx, hc1, hc2]
        · have : ¬ x = i := fun e => hc2 e.symm
          simp [hx, hc1, hc2, this]
      · have : ¬ (a = (s.tasks id).completer ∧ i = [x].headD 0) := fun ⟨e, _⟩ => hc1 e
        simp [hx, hc1, this]
    · intro ops c₂
      have hex' : ((fun i => if i = id then
          { s.tasks id with status := TB.TaskStatus.verified } else s.tasks i) id).id ≠ 0 := by
        simpa using h1
      have hv' : ((fun i => if i = id then
          { s.tasks id with status := TB.TaskStatus.verified } else s.tasks i) id).status =
          .verified := by simp
      have hrp := TB.run_preserves_verified ops
        { s with
          tasks := fun i => if i = id then
              { s.tasks id with status := TB.TaskStatus.verified } else s.tasks i
          rl := rl' } id hle hex' hv'
      rw [TB.verify_verified_error c₂ id _ (by rw [hrp.2]; exact hex') (by rw [hrp.2]; exact hv')]
      rw [hrp.2]
      simp
    · intro c₂ uri ids amts s₂ s₃ hc
      rw [TB.createTask_eq] at hc
      split_ifs at hc <;> try exact Except.noConfusion hc
      injection hc with h'
      subst h'
      rfl
    · intro c₂ id₂ s₂ s₃ hc
      rw [TB.claimTask_eq] at hc
      split_ifs at hc <;> try exact Except.noConfusion hc
      injection hc with h'
      subst h'
      rfl
    · intro c₂ id₂ s₂ s₃ hc
      rw [TB.completeTask_eq] at hc
      split_ifs at hc <;> try exact Except.noConfusion hc
      injection hc with h'
      subst h'
      rfl
  -- batch mint path
  case _ rl' hm =>
    refine ⟨h3, h2, h4, by simp, fun j hj => by simp [hj], rfl, ?_, ?_, ?_, ?_, ?_⟩
    · intro a i
      have hb := (RL.mintBatchReward_ok hm).2.2.2 a i
      show rl'.bal a i = _
      rw [hb]
    · intro ops c₂
      have hex' : ((fun i => if i = id then
          { s.tasks id with status := TB.TaskStatus.verified } else s.tasks i) id).id ≠ 0 := by
        simpa using h1
      have hv' : ((fun i => if i = id then
          { s.tasks id with status := TB.TaskStatus.verified } else s.tasks i) id).status =
          .verified := by simp
      have hrp := TB.run_preserves_verified ops
        { s with
          tasks := fun i => if i = id then
              { s.tasks id with status := TB.TaskStatus.verified } else s.tasks i
          rl := rl' } id hle hex' hv'
      rw [TB.verify_verified_error c₂ id _ (by rw [hrp.2]; exact hex') (by rw [hrp.2]; exact hv')]
      rw [hrp.2]
      simp
    · intro c₂ uri ids amts s₂ s₃ hc
      rw [TB.createTask_eq] at hc
      split_ifs at hc <;> try exact Except.noConfusion hc
      injection hc with h'
      subst h'
      rfl
    · intro c₂ id₂ s₂ s₃ hc
      rw [TB.claimTask_eq] at hc
      split_ifs at hc <;> try exact Except.noConfusion hc
      injection hc with h'
      subst h'
      rfl
    · intro c₂ id₂ s₂ s₃ hc
      rw [TB.completeTask_eq] at hc
      split_ifs at hc <;> try exact Except.noConfusion hc
      injection hc with h'
      subst h'
      rfl

/-- C1 witness: on the concrete create→claim→complete trace, 7's
verification of task 1 succeeds; the theorem then gives the
Completed→Verified transition and that a repeated `verifyTask 7 1` — even
after no-op interleavings — fails with the invalid-state error, while the
worker 8 was credited 50 of asset 0. -/
theorem verifyTask_pays_exactly_once_witness :
    (tbW3.tasks 1).status = .completed ∧
    tbW4.rl.bal 8 0 = tbW3.rl.bal 8 0 +
      (if 8 = (tbW3.tasks 1).completer then
         TB.rewardTotal (tbW3.tasks 1).rewardIds (tbW3.tasks 1).rewardAmounts 0
       else 0) ∧
    TB.verifyTask 7 1 (TB.run [] tbW4) = .error .invalidState := by
  have h := verifyTask_pays_exactly_once 7 1 tbW3 tbW4 (by decide) rfl
  refine ⟨h.1, h.2.2.2.2.2.2.1 8 0, ?_⟩
  have h8 := h.2.2.2.2.2.2.2.1 [] 7
  rw [show (tbW3.tasks 1).creator = 7 from by decide] at h8
  simpa using h8

/-! ## Achievement-engine helper lemmas -/

/-- Fields a badge mint never touches. -/
def Ach.Preserve (s s' : Ach.State) : Prop :=
  s'.minters = s.minters ∧ s'.admins = s.admins ∧
  s'.tasksCompleted = s.tasksCompleted ∧ s'.tokensEarned = s.tokensEarned ∧
  s'.tasksCreated = s.tasksCreated ∧
  s'.lastTaskCompletionDate = s.lastTaskCompletionDate ∧
  s'.currentStreak = s.currentStreak ∧ s'.maxStreak = s.maxStreak

theorem Ach.preserve_refl (s : Ach.State) : Ach.Preserve s s :=
  ⟨rfl, rfl, rfl, rfl, rfl, rfl, rfl, rfl⟩

theorem Ach.preserve_trans {s₁ s₂ s₃ : Ach.State}
    (h1 : Ach.Preserve s₁ s₂) (h2 : Ach.Preserve s₂ s₃) : Ach.Preserve s₁ s₃ := by
  obtain ⟨a1, a2, a3, a4, a5, a6, a7, a8⟩ := h1
  obtain ⟨b1, b2, b3, b4, b5, b6, b7, b8⟩ := h2
  exact ⟨b1.trans a1, b2.trans a2, b3.trans a3, b4.trans a4, b5.trans a5,
    b6.trans a6, b7.trans a7, b8.trans a8⟩

/-- Exactly what a committed `mintCore` does to the state. -/
theorem Ach.mintCore_ok {user : Nat} {ty : Ach.AchievementType} {uri : String}
    {now : Nat} {s s' : Ach.State}
    (h : Ach.mintCore user ty uri now s = .ok s') :
    Ach.Preserve s s' ∧
    s'.tokenIdCounter = s.tokenIdCounter + 1 ∧
    s'.mintLog = s.mintLog ++ [(user, ty)] ∧
    (∀ u t, s'.hasAchievement u t =
        if u = user ∧ t = ty then true else s.hasAchievement u t) ∧
    (∀ i, s'.owners i = if i = s.tokenIdCounter then user else s.owners i) ∧
    user ≠ 0 := by
  unfold Ach.mintCore at h
  split_ifs at h with h1 h2 <;> try exact Except.noConfusion h
  injection h with h'
  subst h'
  exact ⟨⟨rfl, rfl, rfl, rfl, rfl, rfl, rfl, rfl⟩, rfl, rfl, fun u t => rfl,
    fun i => rfl, h1⟩

/-- `mintCore` succeeds exactly for a nonzero recipient and a fresh token
id. -/
theorem Ach.mintCore_isOk (user : Nat) (ty : Ach.AchievementType) (uri : String)
    (now : Nat) (s : Ach.State) (hu : user ≠ 0) (hf : s.owners s.tokenIdCounter = 0) :
    ∃ s', Ach.mintCore user ty uri now s = .ok s' := by
  unfold Ach.mintCore
  rw [if_neg hu, if_neg (by simp [hf])]
  exact ⟨_, rfl⟩

/-- Every committed achievement check preserves the counter and role
fields. -/
theorem Ach.checkTask_preserve {user now : Nat} {s s' : Ach.State}
    (h : Ach.checkTaskAchievements user now s = .ok s') : Ach.Preserve s s' := by
  unfold Ach.checkTaskAchievements at h
  split_ifs at h <;>
    first
      | exact (Ach.mintCore_ok h).1
      | (injection h with h'; subst h'; exact Ach.preserve_refl s)

theorem Ach.checkToken_preserve {user now : Nat} {s s' : Ach.State}
    (h : Ach.checkTokenAchievements user now s = .ok s') : Ach.Preserve s s' := by
  unfold Ach.checkTokenAchievements at h
  split_ifs at h <;>
    first
      | exact (Ach.mintCore_ok h).1
      | (injection h with h'; subst h'; exact Ach.preserve_refl s)

theorem Ach.checkStreak_preserve {user now : Nat} {s s' : Ach.State}
    (h : Ach.checkStreakAchievements user now s = .ok s') : Ach.Preserve s s' := by
  unfold Ach.checkStreakAchievements at h
  split_ifs at h <;>
    first
      | exact (Ach.mintCore_ok h).1
      | (injection h with h'; subst h'; exact Ach.preserve_refl s)

theorem Ach.checkCreator_preserve {user now : Nat} {s s' : Ach.State}
    (h : Ach.checkCreatorAchievements user now s = .ok s') : Ach.Preserve s s' := by
  unfold Ach.checkCreatorAchievements at h
  split_ifs at h <;>
    first
      | exact (Ach.mintCore_ok h).1
      | (injection h with h'; subst h'; exact Ach.preserve_refl s)

/-- What one transition does to the award flags and the mint-event log:
flags are monotone, and the (user, type) event count grows exactly by the
indicator of the flag flipping from unset to set. -/
def Ach.FlagStep (s s' : Ach.State) : Prop :=
  ∀ u t, (s.hasAchievement u t = true → s'.hasAchievement u t = true) ∧
    Ach.countPair (u, t) s'.mintLog =
      Ach.countPair (u, t) s.mintLog +
        (if s.hasAchievement u t = false ∧ s'.hasAchievement u t = true then 1 else 0)

theorem Ach.countPair_append (p q : Nat × Ach.AchievementType)
    (l : List (Nat × Ach.AchievementType)) :
    Ach.countPair p (l ++ [q]) = Ach.countPair p l + (if q = p then 1 else 0) := by
  by_cases h : q = p <;> simp [Ach.countPair, List.filter_append, h]

theorem Ach.flagStep_of_eq {s s' : Ach.State}
    (h1 : s'.hasAchievement = s.hasAchievement) (h2 : s'.mintLog = s.mintLog) :
    Ach.FlagStep s s' := by
  intro u t
  rw [h1, h2]
  simp

theorem Ach.flagStep_trans {s₁ s₂ s₃ : Ach.State}
    (h1 : Ach.FlagStep s₁ s₂) (h2 : Ach.FlagStep s₂ s₃) : Ach.FlagStep s₁ s₃ := by
  intro u t
  obtain ⟨m1, c1⟩ := h1 u t
  obtain ⟨m2, c2⟩ := h2 u t
  refine ⟨fun hf => m2 (m1 hf), ?_⟩
  rw [c2, c1]
  cases hA : s₁.hasAchievement u t <;> cases hB : s₂.hasAchievement u t <;>
    cases hC : s₃.hasAchievement u t <;> simp_all

/-- A guarded `mintCore` (flag unset before) is a `FlagStep`. -/
theorem Ach.mintCore_flagStep {user : Nat} {ty : Ach.AchievementType} {uri : String}
    {now : Nat} {s s' : Ach.State}
    (hg : s.hasAchievement user ty = false)
    (h : Ach.mintCore user ty uri now s = .ok s') : Ach.FlagStep s s' := by
  obtain ⟨-, -, hlog, hflags, -, -⟩ := Ach.mintCore_ok h
  intro u t
  rw [hflags, hlog, Ach.countPair_append]
  by_cases hut : u = user ∧ t = ty
  · obtain ⟨rfl, rfl⟩ := hut
    simp [hg]
  · have : ¬ (user, ty) = (u, t) := by
      rintro ⟨⟩
      exact hut ⟨rfl, rfl⟩
    simp [hut, this]

theorem Ach.checkTask_flagStep {user now : Nat} {s s' : Ach.State}
    (h : Ach.checkTaskAchievements user now s = .ok s') : Ach.FlagStep s s' := by
  unfold Ach.checkTaskAchievements at h
  split_ifs at h with g1 g2 g3 g4 g5 g6 <;>
    first
      | exact Ach.mintCore_flagStep (by simp_all) h
      | (injection h with h'; subst h'; exact Ach.flagStep_of_eq rfl rfl)

theorem Ach.checkToken_flagStep {user now : Nat} {s s' : Ach.State}
    (h : Ach.checkTokenAchievements user now s = .ok s') : Ach.FlagStep s s' := by
  unfold Ach.checkTokenAchievements at h
  split_ifs at h with g1 g2 g3 <;>
    first
      | exact Ach.mintCore_flagStep (by simp_all) h
      | (injection h with h'; subst h'; exact Ach.flagStep_of_eq rfl rfl)

theorem Ach.checkStreak_flagStep {user now : Nat} {s s' : Ach.State}
    (h : Ach.checkStreakAchievements user now s = .ok s') : Ach.FlagStep s s' := by
  unfold Ach.checkStreakAchievements at h
  split_ifs at h with g1 g2 <;>
    first
      | exact Ach.mintCore_flagStep (by simp_all) h
      | (injection h with h'; subst h'; exact Ach.flagStep_of_eq rfl rfl)

theorem Ach.checkCreator_flagStep {user now : Nat} {s s' : Ach.State}
    (h : Ach.checkCreatorAchievements user now s = .ok s') : Ach.FlagStep s s' := by
  unfold Ach.checkCreatorAchievements at h
  split_ifs at h with g1 <;>
    first
      | exact Ach.mintCore_flagStep (by simp_all) h
      | (injection h with h'; subst h'; exact Ach.flagStep_of_eq rfl rfl)

/-- Destructure a two-`>>=` chain of achievement checks. -/
theorem Ach.bind_ok {α β : Type} {a : Except Err α} {f : α → Except Err β} {b : β}
    (h : (a >>= f) = .ok b) : ∃ x, a = .ok x ∧ f x = .ok b := by
  cases a with
  | ok x => exact ⟨x, rfl, h⟩
  | error e => exact Except.noConfusion h

/-- The streak block leaves flags and the mint log untouched. -/
theorem Ach.updStreak_flags_log (user now : Nat) (s : Ach.State) :
    (Ach.updStreak user now s).hasAchievement = s.hasAchievement ∧
    (Ach.updStreak user now s).mintLog = s.mintLog := by
  unfold Ach.updStreak Ach.streakStamp Ach.streakMax Ach.streakCore
  split_ifs <;> exact ⟨rfl, rfl⟩

/-- Every committed transaction of the achievement contract is a
`FlagStep`. -/
theorem Ach.step_flagStep {op : Ach.Op} {s s' : Ach.State}
    (h : Ach.step op s = .ok s') : Ach.FlagStep s s' := by
  cases op with
  | mintBadge c r ty u now =>
    rw [show Ach.step (.mintBadge c r ty u now) s = Ach.mintBadge c r ty u now s from rfl] at h
    unfold Ach.mintBadge at h
    split_ifs at h with h1 h2 <;> try exact Except.noConfusion h
    exact Ach.mintCore_flagStep (by simpa using h2) h
  | updateTaskCompletion c u r now =>
    rw [show Ach.step (.updateTaskCompletion c u r now) s =
        Ach.updateTaskCompletion c u r now s from rfl] at h
    unfold Ach.updateTaskCompletion at h
    split_ifs at h <;> try exact Except.noConfusion h
    obtain ⟨x1, hx1, hx3⟩ := Ach.bind_ok h
    obtain ⟨x0, hx0, hx2⟩ := Ach.bind_ok hx1
    have f0 : Ach.FlagStep s (Ach.updStreak u now (Ach.updCounters u r s)) :=
      Ach.flagStep_of_eq (by rw [(Ach.updStreak_flags_log u now _).1]; rfl)
        (by rw [(Ach.updStreak_flags_log u now _).2]; rfl)
    exact Ach.flagStep_trans (Ach.flagStep_trans (Ach.flagStep_trans f0
      (Ach.checkTask_flagStep hx0)) (Ach.checkToken_flagStep hx2))
      (Ach.checkStreak_flagStep hx3)
  | updateTaskCreation c u now =>
    rw [show Ach.step (.updateTaskCreation c u now) s =
        Ach.updateTaskCreation c u now s from rfl] at h
    unfold Ach.updateTaskCreation at h
    split_ifs at h <;> try exact Except.noConfusion h
    have f0 : Ach.FlagStep s
        { s with tasksCreated := Ach.setc s.tasksCreated u (s.tasksCreated u + 1) } :=
      Ach.flagStep_of_eq rfl rfl
    exact Ach.flagStep_trans f0 (Ach.checkCreator_flagStep h)
  | grantMinter c a =>
    rw [show Ach.step (.grantMinter c a) s = Ach.grantMinterRole c a s from rfl] at h
    unfold Ach.grantMinterRole at h
    split_ifs at h <;> try exact Except.noConfusion h
    all_goals (injection h with h'; subst h'; exact Ach.flagStep_of_eq rfl rfl)
  | revokeMinter c a =>
    rw [show Ach.step (.revokeMinter c a) s = Ach.revokeMinterRole c a s from rfl] at h
    unfold Ach.revokeMinterRole at h
    split_ifs at h <;> try exact Except.noConfusion h
    injection h with h'
    subst h'
    exact Ach.flagStep_of_eq rfl rfl

theorem Ach.badgeStepK_commit {op : Ach.Op} {s s' : Ach.State}
    (h : Ach.step op s = .ok s') : Ach.stepK op s = s' := by
  unfold Ach.stepK
  rw [h]

theorem Ach.badgeStepK_revert {op : Ach.Op} {s : Ach.State} {e : Err}
    (h : Ach.step op s = .error e) : Ach.stepK op s = s := by
  unfold Ach.stepK
  rw [h]

/-- Running any transaction sequence preserves the badge-ledger invariant:
every (user, type) pair has at most one `BadgeMinted` event, and none while
its flag is unset. -/
theorem Ach.run_inv8 (ops : List Ach.Op) (s : Ach.State)
    (hinv : ∀ u t, Ach.countPair (u, t) s.mintLog ≤ 1 ∧
        (s.hasAchievement u t = false → Ach.countPair (u, t) s.mintLog = 0)) :
    ∀ u t, Ach.countPair (u, t) (Ach.run ops s).mintLog ≤ 1 ∧
        ((Ach.run ops s).hasAchievement u t = false →
          Ach.countPair (u, t) (Ach.run ops s).mintLog = 0) := by
  induction ops generalizing s with
  | nil => exact hinv
  | cons op rest ih =>
    have hrun : Ach.run (op :: rest) s = Ach.run rest (Ach.stepK op s) := rfl
    rw [hrun]
    apply ih
    cases hstep : Ach.step op s with
    | error e => rw [Ach.badgeStepK_revert hstep]; exact hinv
    | ok s₂ =>
      rw [Ach.badgeStepK_commit hstep]
      have hf := Ach.step_flagStep hstep
      intro u t
      obtain ⟨m, c⟩ := hf u t
      obtain ⟨i1, i2⟩ := hinv u t
      constructor
      · rw [c]
        cases hA : s.hasAchievement u t
        · rw [i2 hA]
          split_ifs <;> simp
        · simpa using i1
      · intro hA'
        rw [c]
        have hA : s.hasAchievement u t = false := by
          cases hA0 : s.hasAchievement u t
          · rfl
          · exact absurd (m hA0) (by simp [hA'])
        rw [i2 hA]
        simp [hA']

/-- C8: achievement flags are monotone under every committed transaction; a
transaction finding the flag set emits no further `BadgeMinted` event for
that pair; `mintBadge` on a set flag reverts; and from a fresh deployment,
over every transaction sequence, each (user, type) pair is minted at most
once. -/
theorem award_flags_monotone_once :
    (∀ op s s' u t, Ach.step op s = .ok s' →
        s.hasAchievement u t = true → s'.hasAchievement u t = true) ∧
    (∀ op s s' u t, Ach.step op s = .ok s' → s.hasAchievement u t = true →
        Ach.countPair (u, t) s'.mintLog = Ach.countPair (u, t) s.mintLog) ∧
    (∀ c r ty uri now s, c ∈ s.minters → s.hasAchievement r ty = true →
        Ach.mintBadge c r ty uri now s = .error .alreadyAwarded) ∧
    (∀ M ops u t,
        Ach.countPair (u, t) (Ach.run ops (Ach.achInit M)).mintLog ≤ 1) := by
  refine ⟨?_, ?_, ?_, ?_⟩
  · intro op s s' u t h hf
    exact (Ach.step_flagStep h u t).1 hf
  · intro op s s' u t h hf
    rw [(Ach.step_flagStep h u t).2]
    simp [hf]
  · intro c r ty uri now s hm hf
    unfold Ach.mintBadge
    rw [if_pos hm, if_pos hf]
  · intro M ops u t
    exact (Ach.run_inv8 ops (Ach.achInit M)
      (fun u t => by simp [Ach.achInit, Ach.countPair]) u t).1

/-- The state after minting `FIRST_TASK` to user 5 via `mintBadge`. -/
def achW : Ach.State :=
  Ach.run [.mintBadge 1 5 .FIRST_TASK "uri" 0] (Ach.achInit 1)

/-- C8 witness: with 5's `FIRST_TASK` flag set, a committed `grantMinter`
keeps the flag set and adds no event; `mintBadge` for the pair reverts; the
pair's lifetime event count is at most one. -/
theorem award_flags_monotone_once_witness :
    (Ach.stepK (.grantMinter 1 2) achW).hasAchievement 5 .FIRST_TASK = true ∧
    Ach.countPair (5, .FIRST_TASK) (Ach.stepK (.grantMinter 1 2) achW).mintLog =
      Ach.countPair (5, .FIRST_TASK) achW.mintLog ∧
    Ach.mintBadge 1 5 .FIRST_TASK "x" 3 achW = .error .alreadyAwarded ∧
    Ach.countPair (5, .FIRST_TASK)
      (Ach.run [.mintBadge 1 5 .FIRST_TASK "uri" 0] (Ach.achInit 1)).mintLog ≤ 1 := by
  obtain ⟨m, cnt, badge, once⟩ := award_flags_monotone_once
  refine ⟨m (.grantMinter 1 2) achW _ 5 .FIRST_TASK rfl (by decide),
    cnt (.grantMinter 1 2) achW _ 5 .FIRST_TASK rfl (by decide),
    badge 1 5 .FIRST_TASK "x" 3 achW (by decide) (by decide),
    once 1 [.mintBadge 1 5 .FIRST_TASK "uri" 0] 5 .FIRST_TASK⟩

/-! ## C9: maxStreak dominates currentStreak -/

/-- Streak effects of the streak block: other users untouched, the updated
user ends with `currentStreak ≤ maxStreak` (the raise step guarantees it
outright), and `maxStreak` never decreases. -/
theorem Ach.streakCore_spec (user now : Nat) (s : Ach.State) :
    (∀ v, v ≠ user → (Ach.streakCore user now s).currentStreak v = s.currentStreak v) ∧
    (Ach.streakCore user now s).maxStreak = s.maxStreak ∧
    (Ach.streakCore user now s).lastTaskCompletionDate = s.lastTaskCompletionDate := by
  unfold Ach.streakCore
  split_ifs <;> exact ⟨fun v hv => by simp [Ach.setc, hv], rfl, rfl⟩

theorem Ach.streakMax_spec (user : Nat) (s : Ach.State) :
    (Ach.streakMax user s).currentStreak = s.currentStreak ∧
    (∀ v, v ≠ user → (Ach.streakMax user s).maxStreak v = s.maxStreak v) ∧
    (Ach.streakMax user s).currentStreak user ≤ (Ach.streakMax user s).maxStreak user ∧
    (∀ v, s.maxStreak v ≤ (Ach.streakMax user s).maxStreak v) := by
  unfold Ach.streakMax
  split_ifs with g
  · refine ⟨rfl, fun v hv => by simp [Ach.setc, hv], by simp [Ach.setc], fun v => ?_⟩
    by_cases hv : v = user
    · subst hv
      simp [Ach.setc]
      omega
    · simp [Ach.setc, hv]
  · exact ⟨rfl, fun v hv => rfl, by omega, fun v => le_rfl⟩

theorem Ach.updStreak_streak (user now : Nat) (s : Ach.State) :
    (∀ v, v ≠ user → (Ach.updStreak user now s).currentStreak v = s.currentStreak v ∧
        (Ach.updStreak user now s).maxStreak v = s.maxStreak v) ∧
    (Ach.updStreak user now s).currentStreak user ≤
      (Ach.updStreak user now s).maxStreak user ∧
    (∀ v, s.maxStreak v ≤ (Ach.updStreak user now s).maxStreak v) := by
  obtain ⟨c1, c2, c3⟩ := Ach.streakCore_spec user now s
  obtain ⟨m1, m2, m3, m4⟩ := Ach.streakMax_spec user (Ach.streakCore user now s)
  refine ⟨fun v hv => ⟨?_, ?_⟩, m3, fun v => ?_⟩
  · show (Ach.streakMax user (Ach.streakCore user now s)).currentStreak v = _
    rw [m1]
    exact c1 v hv
  · show (Ach.streakMax user (Ach.streakCore user now s)).maxStreak v = _
    rw [m2 v hv, c2]
  · show s.maxStreak v ≤ (Ach.streakMax user (Ach.streakCore user now s)).maxStreak v
    calc s.maxStreak v = (Ach.streakCore user now s).maxStreak v := by rw [c2]
    _ ≤ _ := m4 v

/-- Streak effects of one committed transaction: every user's `maxStreak`
never decreases, and `currentStreak ≤ maxStreak` is preserved (for the
updated user it is re-established unconditionally). -/
theorem Ach.step_streak_inv {op : Ach.Op} {s s' : Ach.State}
    (h : Ach.step op s = .ok s') :
    (∀ u, s.maxStreak u ≤ s'.maxStreak u) ∧
    ((∀ u, s.currentStreak u ≤ s.maxStreak u) →
      ∀ u, s'.currentStreak u ≤ s'.maxStreak u) := by
  cases op with
  | mintBadge c r ty uri now =>
    rw [show Ach.step (.mintBadge c r ty uri now) s = Ach.mintBadge c r ty uri now s from rfl] at h
    unfold Ach.mintBadge at h
    split_ifs at h <;> try exact Except.noConfusion h
    obtain ⟨⟨-, -, -, -, -, -, hc, hm⟩, -⟩ := Ach.mintCore_ok h
    rw [hc, hm]
    exact ⟨fun u => le_rfl, fun hinv => hinv⟩
  | updateTaskCompletion c u r now =>
    rw [show Ach.step (.updateTaskCompletion c u r now) s =
        Ach.updateTaskCompletion c u r now s from rfl] at h
    unfold Ach.updateTaskCompletion at h
    split_ifs at h <;> try exact Except.noConfusion h
    obtain ⟨x1, hx1, hx3⟩ := Ach.bind_ok h
    obtain ⟨x0, hx0, hx2⟩ := Ach.bind_ok hx1
    obtain ⟨-, -, -, -, -, -, p7, p8⟩ :=
      Ach.preserve_trans (Ach.preserve_trans (Ach.checkTask_preserve hx0)
        (Ach.checkToken_preserve hx2)) (Ach.checkStreak_preserve hx3)
    rw [p7, p8]
    obtain ⟨hother, huser, hmono⟩ := Ach.updStreak_streak u now (Ach.updCounters u r s)
    refine ⟨fun v => hmono v, fun hinv v => ?_⟩
    by_cases hv : v = u
    · subst hv
      exact huser
    · rw [(hother v hv).1, (hother v hv).2]
      exact hinv v
  | updateTaskCreation c u now =>
    rw [show Ach.step (.updateTaskCreation c u now) s =
        Ach.updateTaskCreation c u now s from rfl] at h
    unfold Ach.updateTaskCreation at h
    split_ifs at h <;> try exact Except.noConfusion h
    obtain ⟨-, -, -, -, -, -, p7, p8⟩ := Ach.checkCreator_preserve h
    rw [p7, p8]
    exact ⟨fun u => le_rfl, fun hinv => hinv⟩
  | grantMinter c a =>
    rw [show Ach.step (.grantMinter c a) s = Ach.grantMinterRole c a s from rfl] at h
    unfold Ach.grantMinterRole at h
    split_ifs at h <;> try exact Except.noConfusion h
    all_goals (injection h with h'; subst h'; exact ⟨fun u => le_rfl, fun hinv => hinv⟩)
  | revokeMinter c a =>
    rw [show Ach.step (.revokeMinter c a) s = Ach.revokeMinterRole c a s from rfl] at h
    unfold Ach.revokeMinterRole at h
    split_ifs at h <;> try exact Except.noConfusion h
    injection h with h'
    subst h'
    exact ⟨fun u => le_rfl, fun hinv => hinv⟩

/-- C9: from a fresh deployment, after every transaction sequence each
user's `maxStreak` is at least their `currentStreak`; and `maxStreak` never
decreases — neither over one committed transaction nor over any
sequence. -/
theorem maxStreak_dominates :
    (∀ M ops u, (Ach.run ops (Ach.achInit M)).currentStreak u ≤
        (Ach.run ops (Ach.achInit M)).maxStreak u) ∧
    (∀ op s s' u, Ach.step op s = .ok s' → s.maxStreak u ≤ s'.maxStreak u) ∧
    (∀ ops s u, s.maxStreak u ≤ (Ach.run ops s).maxStreak u) := by
  have hrun : ∀ (ops : List Ach.Op) (s : Ach.State),
      ((∀ u, s.currentStreak u ≤ s.maxStreak u) →
        ∀ u, (Ach.run ops s).currentStreak u ≤ (Ach.run ops s).maxStreak u) ∧
      (∀ u, s.maxStreak u ≤ (Ach.run ops s).maxStreak u) := by
    intro ops
    induction ops with
    | nil => exact fun s => ⟨fun hinv => hinv, fun u => le_rfl⟩
    | cons op rest ih =>
      intro s
      have hrun1 : Ach.run (op :: rest) s = Ach.run rest (Ach.stepK op s) := rfl
      rw [hrun1]
      cases hstep : Ach.step op s with
      | error e =>
        rw [Ach.badgeStepK_revert hstep]
        exact ih s
      | ok s₂ =>
        rw [Ach.badgeStepK_commit hstep]
        obtain ⟨hmono₂, hinv₂⟩ := Ach.step_streak_inv hstep
        obtain ⟨ha, hb⟩ := ih s₂
        exact ⟨fun hinv => ha (hinv₂ hinv), fun u => (hmono₂ u).trans (hb u)⟩
  refine ⟨?_, ?_, ?_⟩
  · intro M ops u
    exact (hrun ops (Ach.achInit M)).1 (fun u => le_rfl) u
  · intro op s s' u h
    exact (Ach.step_streak_inv h).1 u
  · intro ops s u
    exact (hrun ops s).2 u

/-- C9 witness: on the concrete badge deployment after one task completion,
the invariant and both monotonicity conjuncts instantiate. -/
theorem maxStreak_dominates_witness :
    (Ach.run [.updateTaskCompletion 1 5 10 100000] (Ach.achInit 1)).currentStreak 5 ≤
      (Ach.run [.updateTaskCompletion 1 5 10 100000] (Ach.achInit 1)).maxStreak 5 ∧
    achW.maxStreak 5 ≤ (Ach.stepK (.grantMinter 1 2) achW).maxStreak 5 ∧
    achW.maxStreak 5 ≤ (Ach.run [.grantMinter 1 2] achW).maxStreak 5 := by
  obtain ⟨h1, h2, h3⟩ := maxStreak_dominates
  exact ⟨h1 1 [.updateTaskCompletion 1 5 10 100000] 5,
    h2 (.grantMinter 1 2) achW _ 5 rfl,
    h3 [.grantMinter 1 2] achW 5⟩

/-! ## C2: the else-if threshold chains award only the first match -/

/-- Exact flag effect of the creator check. -/
theorem Ach.checkCreator_flags {user now : Nat} {s s' : Ach.State}
    (h : Ach.checkCreatorAchievements user now s = .ok s') :
    (∀ u t, u ≠ user → s'.hasAchievement u t = s.hasAchievement u t) ∧
    (∀ t, t ≠ .COMMUNITY_BUILDER → s'.hasAchievement user t = s.hasAchievement user t) ∧
    s'.hasAchievement user .COMMUNITY_BUILDER =
      (s.hasAchievement user .COMMUNITY_BUILDER || decide (10 ≤ s.tasksCreated user)) := by
  unfold Ach.checkCreatorAchievements at h
  split_ifs at h with g1
  · obtain ⟨-, -, -, hfl, -, -⟩ := Ach.mintCore_ok h
    refine ⟨fun u t hu => by simp [hfl, hu], fun t ht => by simp [hfl, ht], ?_⟩
    simp [hfl, g1.1, g1.2]
  · injection h with h'
    subst h'
    refine ⟨fun u t hu => rfl, fun t ht => rfl, ?_⟩
    cases hf : s.hasAchievement user .COMMUNITY_BUILDER
    · have : ¬ 10 ≤ s.tasksCreated user := fun hc => g1 ⟨hc, hf⟩
      simp [this]
    · simp

/-- Exact flag effect of the streak check: `STREAK_30` fires only when
`STREAK_7` was already held. -/
theorem Ach.checkStreak_flags {user now : Nat} {s s' : Ach.State}
    (h : Ach.checkStreakAchievements user now s = .ok s') :
    (∀ u t, u ≠ user → s'.hasAchievement u t = s.hasAchievement u t) ∧
    (∀ t, t ≠ .STREAK_7 → t ≠ .STREAK_30 →
        s'.hasAchievement user t = s.hasAchievement user t) ∧
    s'.hasAchievement user .STREAK_7 =
      (s.hasAchievement user .STREAK_7 || decide (7 ≤ s.currentStreak user)) ∧
    s'.hasAchievement user .STREAK_30 =
      (s.hasAchievement user .STREAK_30 ||
        (s.hasAchievement user .STREAK_7 && decide (30 ≤ s.currentStreak user))) := by
  unfold Ach.checkStreakAchievements at h
  split_ifs at h with g1 g2
  · obtain ⟨-, -, -, hfl, -, -⟩ := Ach.mintCore_ok h
    refine ⟨fun u t hu => by simp [hfl, hu], fun t ht7 ht30 => by simp [hfl, ht7], ?_, ?_⟩
    · simp [hfl, g1.1, g1.2]
    · simp [hfl, g1.2]
  · obtain ⟨-, -, -, hfl, -, -⟩ := Ach.mintCore_ok h
    have h7 : s.hasAchievement user .STREAK_7 = true := by
      cases hf : s.hasAchievement user .STREAK_7
      · exact absurd ⟨by omega, hf⟩ g1
      · rfl
    refine ⟨fun u t hu => by simp [hfl, hu], fun t ht7 ht30 => by simp [hfl, ht30], ?_, ?_⟩
    · simp [hfl, h7]
    · simp [hfl, h7, g2.1, g2.2]
  · injection h with h'
    subst h'
    refine ⟨fun u t hu => rfl, fun t ht7 ht30 => rfl, ?_, ?_⟩
    · cases hf : s.hasAchievement user .STREAK_7
      · have : ¬ 7 ≤ s.currentStreak user := fun hc => g1 ⟨hc, hf⟩
        simp [this]
      · simp
    · cases hf : s.hasAchievement user .STREAK_30
      · cases hf7 : s.hasAchievement user .STREAK_7
        · simp
        · have : ¬ 30 ≤ s.currentStreak user := fun hc => g2 ⟨hc, hf⟩
          simp [this]
      · simp

/-- Exact flag effect of the token check: a higher collector badge fires
only when every lower one was already held, so only the first unawarded
matching threshold of the chain is awarded per update. -/
theorem Ach.checkToken_flags {user now : Nat} {s s' : Ach.State}
    (h : Ach.checkTokenAchievements user now s = .ok s') :
    (∀ u t, u ≠ user → s'.hasAchievement u t = s.hasAchievement u t) ∧
    (∀ t, t ≠ .TOKEN_COLLECTOR_100 → t ≠ .TOKEN_COLLECTOR_500 →
        t ≠ .TOKEN_COLLECTOR_1000 →
        s'.hasAchievement user t = s.hasAchievement user t) ∧
    s'.hasAchievement user .TOKEN_COLLECTOR_100 =
      (s.hasAchievement user .TOKEN_COLLECTOR_100 ||
        decide (100 ≤ s.tokensEarned user)) ∧
    s'.hasAchievement user .TOKEN_COLLECTOR_500 =
      (s.hasAchievement user .TOKEN_COLLECTOR_500 ||
        (s.hasAchievement user .TOKEN_COLLECTOR_100 &&
          decide (500 ≤ s.tokensEarned user))) ∧
    s'.hasAchievement user .TOKEN_COLLECTOR_1000 =
      (s.hasAchievement user .TOKEN_COLLECTOR_1000 ||
        (s.hasAchievement user .TOKEN_COLLECTOR_100 &&
          s.hasAchievement user .TOKEN_COLLECTOR_500 &&
          decide (1000 ≤ s.tokensEarned user))) := by
  unfold Ach.checkTokenAchievements at h
  split_ifs at h with g1 g2 g3
  · obtain ⟨-, -, -, hfl, -, -⟩ := Ach.mintCore_ok h
    refine ⟨fun u t hu => by simp [hfl, hu], fun t h1 h2 h3 => by simp [hfl, h1], ?_, ?_, ?_⟩
    · simp [hfl, g1.1, g1.2]
    · simp [hfl, g1.2]
    · simp [hfl, g1.2]
  · obtain ⟨-, -, -, hfl, -, -⟩ := Ach.mintCore_ok h
    have h100 : s.hasAchievement user .TOKEN_COLLECTOR_100 = true := by
      cases hf : s.hasAchievement user .TOKEN_COLLECTOR_100
      · exact absurd ⟨by omega, hf⟩ g1
      · rfl
    refine ⟨fun u t hu => by simp [hfl, hu], fun t h1 h2 h3 => by simp [hfl, h2], ?_, ?_, ?_⟩
    · simp [hfl, h100]
    · simp [hfl, h100, g2.1, g2.2]
    · simp [hfl, g2.2]
  · obtain ⟨-, -, -, hfl, -, -⟩ := Ach.mintCore_ok h
    have h100 : s.hasAchievement user .TOKEN_COLLECTOR_100 = true := by
      cases hf : s.hasAchievement user .TOKEN_COLLECTOR_100
      · exact absurd ⟨by omega, hf⟩ g1
      · rfl
    have h500 : s.hasAchievement user .TOKEN_COLLECTOR_500 = true := by
      cases hf : s.hasAchievement user .TOKEN_COLLECTOR_500
      · exact absurd ⟨by omega, hf⟩ g2
      · rfl
    refine ⟨fun u t hu => by simp [hfl, hu], fun t h1 h2 h3 => by simp [hfl, h3], ?_, ?_, ?_⟩
    · simp [hfl, h100]
    · simp [hfl, h500]
    · simp [hfl, h100, h500, g3.1, g3.2]
  · injection h with h'
    subst h'
    refine ⟨fun u t hu => rfl, fun t h1 h2 h3 => rfl, ?_, ?_, ?_⟩
    · cases hf : s.hasAchievement user .TOKEN_COLLECTOR_100
      · have : ¬ 100 ≤ s.tokensEarned user := fun hc => g1 ⟨hc, hf⟩
        simp [this]
      · simp
    · cases hf : s.hasAchievement user .TOKEN_COLLECTOR_500
      · cases hf1 : s.hasAchievement user .TOKEN_COLLECTOR_100
        · simp
        · have : ¬ 500 ≤ s.tokensEarned user := fun hc => g2 ⟨hc, hf⟩
          simp [this]
      · simp
    · cases hf : s.hasAchievement user .TOKEN_COLLECTOR_1000
      · cases hf1 : s.hasAchievement user .TOKEN_COLLECTOR_100
        · simp
        · cases hf5 : s.hasAchievement user .TOKEN_COLLECTOR_500
          · simp
          · have : ¬ 1000 ≤ s.tokensEarned user := fun hc => g3 ⟨hc, hf⟩
            simp [this]
      · simp

/-- Exact flag effect of the task-count check: each milestone fires only
when every lower milestone flag was already set (first match of the
else-if chain). -/
theorem Ach.checkTask_flags {user now : Nat} {s s' : Ach.State}
    (h : Ach.checkTaskAchievements user now s = .ok s') :
    (∀ u t, u ≠ user → s'.hasAchievement u t = s.hasAchievement u t) ∧
    (∀ t, t ≠ .FIRST_TASK → t ≠ .TASK_MILESTONE_5 → t ≠ .TASK_MILESTONE_10 →
        t ≠ .TASK_MILESTONE_25 → t ≠ .TASK_MILESTONE_50 → t ≠ .TASK_MILESTONE_100 →
        s'.hasAchievement user t = s.hasAchievement user t) ∧
    s'.hasAchievement user .FIRST_TASK =
      (s.hasAchievement user .FIRST_TASK || decide (s.tasksCompleted user = 1)) ∧
    s'.hasAchievement user .TASK_MILESTONE_5 =
      (s.hasAchievement user .TASK_MILESTONE_5 ||
        decide (5 ≤ s.tasksCompleted user)) ∧
    s'.hasAchievement user .TASK_MILESTONE_10 =
      (s.hasAchievement user .TASK_MILESTONE_10 ||
        (s.hasAchievement user .TASK_MILESTONE_5 &&
          decide (10 ≤ s.tasksCompleted user))) ∧
    s'.hasAchievement user .TASK_MILESTONE_25 =
      (s.hasAchievement user .TASK_MILESTONE_25 ||
        (s.hasAchievement user .TASK_MILESTONE_5 &&
          s.hasAchievement user .TASK_MILESTONE_10 &&
          decide (25 ≤ s.tasksCompleted user))) ∧
    s'.hasAchievement user .TASK_MILESTONE_50 =
      (s.hasAchievement user .TASK_MILESTONE_50 ||
        (s.hasAchievement user .TASK_MILESTONE_5 &&
          s.hasAchievement user .TASK_MILESTONE_10 &&
          s.hasAchievement user .TASK_MILESTONE_25 &&
          decide (50 ≤ s.tasksCompleted user))) ∧
    s'.hasAchievement user .TASK_MILESTONE_100 =
      (s.hasAchievement user .TASK_MILESTONE_100 ||
        (s.hasAchievement user .TASK_MILESTONE_5 &&
          s.hasAchievement user .TASK_MILESTONE_10 &&
          s.hasAchievement user .TASK_MILESTONE_25 &&
          s.hasAchievement user .TASK_MILESTONE_50 &&
          decide (100 ≤ s.tasksCompleted user))) := by
  unfold Ach.checkTaskAchievements at h
  split_ifs at h with g1 g2 g3 g4 g5 g6
  · obtain ⟨-, -, -, hfl, -, -⟩ := Ach.mintCore_ok h
    have h5c : ¬ 5 ≤ s.tasksCompleted user := by omega
    have h10c : ¬ 10 ≤ s.tasksCompleted user := by omega
    have h25c : ¬ 25 ≤ s.tasksCompleted user := by omega
    have h50c : ¬ 50 ≤ s.tasksCompleted user := by omega
    have h100c : ¬ 100 ≤ s.tasksCompleted user := by omega
    refine ⟨fun u t hu => by simp [hfl, hu], fun t h1 h2 h3 h4 h5 h6 => by simp [hfl, h1],
      ?_, ?_, ?_, ?_, ?_, ?_⟩
    · simp [hfl, g1.1, g1.2]
    · simp [hfl, h5c]
    · simp [hfl, h10c]
    · simp [hfl, h25c]
    · simp [hfl, h50c]
    · simp [hfl, h100c]
  · obtain ⟨-, -, -, hfl, -, -⟩ := Ach.mintCore_ok h
    have hc1 : ¬ s.tasksCompleted user = 1 := by omega
    refine ⟨fun u t hu => by simp [hfl, hu], fun t h1 h2 h3 h4 h5 h6 => by simp [hfl, h2],
      ?_, ?_, ?_, ?_, ?_, ?_⟩
    · simp [hfl, hc1]
    · simp [hfl, g2.1, g2.2]
    · simp [hfl, g2.2]
    · simp [hfl, g2.2]
    · simp [hfl, g2.2]
    · simp [hfl, g2.2]
  · obtain ⟨-, -, -, hfl, -, -⟩ := Ach.mintCore_ok h
    have hc1 : ¬ s.tasksCompleted user = 1 := by omega
    have h5 : s.hasAchievement user .TASK_MILESTONE_5 = true := by
      cases hf : s.hasAchievement user .TASK_MILESTONE_5
      · exact absurd ⟨by omega, hf⟩ g2
      · rfl
    refine ⟨fun u t hu => by simp [hfl, hu], fun t h1 h2 h3 h4 h5 h6 => by simp [hfl, h3],
      ?_, ?_, ?_, ?_, ?_, ?_⟩
    · simp [hfl, hc1]
    · simp [hfl, h5]
    · simp [hfl, h5, g3.1, g3.2]
    · simp [hfl, g3.2]
    · simp [hfl, g3.2]
    · simp [hfl, g3.2]
  · obtain ⟨-, -, -, hfl, -, -⟩ := Ach.mintCore_ok h
    have hc1 : ¬ s.tasksCompleted user = 1 := by omega
    have h5 : s.hasAchievement user .TASK_MILESTONE_5 = true := by
      cases hf : s.hasAchievement user .TASK_MILESTONE_5
      · exact absurd ⟨by omega, hf⟩ g2
      · rfl
    have h10 : s.hasAchievement user .TASK_MILESTONE_10 = true := by
      cases hf : s.hasAchievement user .TASK_MILESTONE_10
      · exact absurd ⟨by omega, hf⟩ g3
      · rfl
    refine ⟨fun u t hu => by simp [hfl, hu], fun t h1 h2 h3 h4 h5 h6 => by simp [hfl, h4],
      ?_, ?_, ?_, ?_, ?_, ?_⟩
    · simp [hfl, hc1]
    · simp [hfl, h5]
    · simp [hfl, h10]
    · simp [hfl, h5, h10, g4.1, g4.2]
    · simp [hfl, g4.2]
    · simp [hfl, g4.2]
  · obtain ⟨-, -, -, hfl, -, -⟩ := Ach.mintCore_ok h
    have hc1 : ¬ s.tasksCompleted user = 1 := by omega
    have h5 : s.hasAchievement user .TASK_MILESTONE_5 = true := by
      cases hf : s.hasAchievement user .TASK_MILESTONE_5
      · exact absurd ⟨by omega, hf⟩ g2
      · rfl
    have h10 : s.hasAchievement user .TASK_MILESTONE_10 = true := by
      cases hf : s.hasAchievement user .TASK_MILESTONE_10
      · exact absurd ⟨by omega, hf⟩ g3
      · rfl
    have h25 : s.hasAchievement user .TASK_MILESTONE_25 = true := by
      cases hf : s.hasAchievement user .TASK_MILESTONE_25
      · exact absurd ⟨by omega, hf⟩ g4
      · rfl
    refine ⟨fun u t hu => by simp [hfl, hu], fun t h1 h2 h3 h4 h5 h6 => by simp [hfl, h5],
      ?_, ?_, ?_, ?_, ?_, ?_⟩
    · simp [hfl, hc1]
    · simp [hfl, h5]
    · simp [hfl, h10]
    · simp [hfl, h25]
    · simp [hfl, h5, h10, h25, g5.1, g5.2]
    · simp [hfl, g5.2]
  · obtain ⟨-, -, -, hfl, -, -⟩ := Ach.mintCore_ok h
    have hc1 : ¬ s.tasksCompleted user = 1 := by omega
    have h5 : s.hasAchievement user .TASK_MILESTONE_5 = true := by
      cases hf : s.hasAchievement user .TASK_MILESTONE_5
      · exact absurd ⟨by omega, hf⟩ g2
      · rfl
    have h10 : s.hasAchievement user .TASK_MILESTONE_10 = true := by
      cases hf : s.hasAchievement user .TASK_MILESTONE_10
      · exact absurd ⟨by omega, hf⟩ g3
      · rfl
    have h25 : s.hasAchievement user .TASK_MILESTONE_25 = true := by
      cases hf : s.hasAchievement user .TASK_MILESTONE_25
      · exact absurd ⟨by omega, hf⟩ g4
      · rfl
    have h50 : s.hasAchievement user .TASK_MILESTONE_50 = true := by
      cases hf : s.hasAchievement user .TASK_MILESTONE_50
      · exact absurd ⟨by omega, hf⟩ g5
      · rfl
    refine ⟨fun u t hu => by simp [hfl, hu], fun t h1 h2 h3 h4 h5 h6 => by simp [hfl, h6],
      ?_, ?_, ?_, ?_, ?_, ?_⟩
    · simp [hfl, hc1]
    · simp [hfl, h5]
    · simp [hfl, h10]
    · simp [hfl, h25]
    · simp [hfl, h50]
    · simp [hfl, h5, h10, h25, h50, g6.1, g6.2]
  · injection h with h'
    subst h'
    refine ⟨fun u t hu => rfl, fun t h1 h2 h3 h4 h5 h6 => rfl, ?_, ?_, ?_, ?_, ?_, ?_⟩
    · cases hf : s.hasAchievement user .FIRST_TASK
      · have : ¬ s.tasksCompleted user = 1 := fun hc => g1 ⟨hc, hf⟩
        simp [this]
      · simp
    · cases hf : s.hasAchievement user .TASK_MILESTONE_5
      · have : ¬ 5 ≤ s.tasksCompleted user := fun hc => g2 ⟨hc, hf⟩
        simp [this]
      · simp
    · cases hf : s.hasAchievement user .TASK_MILESTONE_10
      · have : ¬ 10 ≤ s.tasksCompleted user := fun hc => g3 ⟨hc, hf⟩
        simp [this]
      · simp
    · cases hf : s.hasAchievement user .TASK_MILESTONE_25
      · have : ¬ 25 ≤ s.tasksCompleted user := fun hc => g4 ⟨hc, hf⟩
        simp [this]
      · simp
    · cases hf : s.hasAchievement user .TASK_MILESTONE_50
      · have : ¬ 50 ≤ s.tasksCompleted user := fun hc => g5 ⟨hc, hf⟩
        simp [this]
      · simp
    · cases hf : s.hasAchievement user .TASK_MILESTONE_100
      · have : ¬ 100 ≤ s.tasksCompleted user := fun hc => g6 ⟨hc, hf⟩
        simp [this]
      · simp

/-- The streak block leaves the three milestone counters untouched. -/
theorem Ach.updStreak_counters (user now : Nat) (s : Ach.State) :
    (Ach.updStreak user now s).tasksCompleted = s.tasksCompleted ∧
    (Ach.updStreak user now s).tokensEarned = s.tokensEarned ∧
    (Ach.updStreak user now s).tasksCreated = s.tasksCreated := by
  unfold Ach.updStreak Ach.streakStamp Ach.streakMax Ach.streakCore
  split_ifs <;> exact ⟨rfl, rfl, rfl⟩

/-- C2 counterexample: a single completion update jumping `tokensEarned`
from 0 to 1090 crosses the 100, 500 and 1000 thresholds — none previously
awarded — yet only `TOKEN_COLLECTOR_100` is awarded; the claim demands that
`TOKEN_COLLECTOR_500` and `TOKEN_COLLECTOR_1000` be awarded in the same
update. -/
theorem token_jump_awards_only_lowest :
    (Ach.achInit 1).hasAchievement 5 .TOKEN_COLLECTOR_500 = false ∧
    (Ach.run [.updateTaskCompletion 1 5 1090 100000] (Ach.achInit 1)).tokensEarned 5 = 1090 ∧
    (Ach.run [.updateTaskCompletion 1 5 1090 100000] (Ach.achInit 1)).hasAchievement 5
      .TOKEN_COLLECTOR_100 = true ∧
    (Ach.run [.updateTaskCompletion 1 5 1090 100000] (Ach.achInit 1)).hasAchievement 5
      .TOKEN_COLLECTOR_500 = false ∧
    (Ach.run [.updateTaskCompletion 1 5 1090 100000] (Ach.achInit 1)).hasAchievement 5
      .TOKEN_COLLECTOR_1000 = false :=
  ⟨by decide, by decide, by decide, by decide, by decide⟩

/-- C2 amended: a committed completion update advances the counters and
evaluates every family's else-if chain to its FIRST unawarded matching
threshold only: a milestone flag is newly set exactly when its bound is met
and every lower flag of its chain was already set before the update, so
multiple thresholds crossed in one jump are not all awarded in that
update. -/
theorem threshold_chain_awards_first_match (caller user r now : Nat)
    (s s' : Ach.State)
    (h : Ach.updateTaskCompletion caller user r now s = .ok s') :
    s'.tasksCompleted user = s.tasksCompleted user + 1 ∧
    s'.tokensEarned user = s.tokensEarned user + r ∧
    s'.hasAchievement user .FIRST_TASK =
      (s.hasAchievement user .FIRST_TASK ||
        decide (s.tasksCompleted user + 1 = 1)) ∧
    s'.hasAchievement user .TASK_MILESTONE_5 =
      (s.hasAchievement user .TASK_MILESTONE_5 ||
        decide (5 ≤ s.tasksCompleted user + 1)) ∧
    s'.hasAchievement user .TASK_MILESTONE_10 =
      (s.hasAchievement user .TASK_MILESTONE_10 ||
        (s.hasAchievement user .TASK_MILESTONE_5 &&
          decide (10 ≤ s.tasksCompleted user + 1))) ∧
    s'.hasAchievement user .TASK_MILESTONE_25 =
      (s.hasAchievement user .TASK_MILESTONE_25 ||
        (s.hasAchievement user .TASK_MILESTONE_5 &&
          s.hasAchievement user .TASK_MILESTONE_10 &&
          decide (25 ≤ s.tasksCompleted user + 1))) ∧
    s'.hasAchievement user .TASK_MILESTONE_50 =
      (s.hasAchievement user .TASK_MILESTONE_50 ||
        (s.hasAchievement user .TASK_MILESTONE_5 &&
          s.hasAchievement user .TASK_MILESTONE_10 &&
          s.hasAchievement user .TASK_MILESTONE_25 &&
          decide (50 ≤ s.tasksCompleted user + 1))) ∧
    s'.hasAchievement user .TASK_MILESTONE_100 =
      (s.hasAchievement user .TASK_MILESTONE_100 ||
        (s.hasAchievement user .TASK_MILESTONE_5 &&
          s.hasAchievement user .TASK_MILESTONE_10 &&
          s.hasAchievement user .TASK_MILESTONE_25 &&
          s.hasAchievement user .TASK_MILESTONE_50 &&
          decide (100 ≤ s.tasksCompleted user + 1))) ∧
    s'.hasAchievement user .TOKEN_COLLECTOR_100 =
      (s.hasAchievement user .TOKEN_COLLECTOR_100 ||
        decide (100 ≤ s.tokensEarned user + r)) ∧
    s'.hasAchievement user .TOKEN_COLLECTOR_500 =
      (s.hasAchievement user .TOKEN_COLLECTOR_500 ||
        (s.hasAchievement user .TOKEN_COLLECTOR_100 &&
          decide (500 ≤ s.tokensEarned user + r))) ∧
    s'.hasAchievement user .TOKEN_COLLECTOR_1000 =
      (s.hasAchievement user .TOKEN_COLLECTOR_1000 ||
        (s.hasAchievement user .TOKEN_COLLECTOR_100 &&
          s.hasAchievement user .TOKEN_COLLECTOR_500 &&
          decide (1000 ≤ s.tokensEarned user + r))) ∧
    s'.hasAchievement user .STREAK_7 =
      (s.hasAchievement user .STREAK_7 ||
        decide (7 ≤ s'.currentStreak user)) ∧
    s'.hasAchievement user .STREAK_30 =
      (s.hasAchievement user .STREAK_30 ||
        (s.hasAchievement user .STREAK_7 &&
          decide (30 ≤ s'.currentStreak user))) := by
  unfold Ach.updateTaskCompletion at h
  split_ifs at h <;> try exact Except.noConfusion h
  obtain ⟨x1, hx1, hx3⟩ := Ach.bind_ok h
  obtain ⟨x0, hx0, hx2⟩ := Ach.bind_ok hx1
  obtain ⟨-, -, pA3, pA4, -, -, pA7, -⟩ := Ach.checkTask_preserve hx0
  obtain ⟨-, -, pB3, pB4, -, -, pB7, -⟩ := Ach.checkToken_preserve hx2
  obtain ⟨-, -, pC3, pC4, -, -, pC7, -⟩ := Ach.checkStreak_preserve hx3
  obtain ⟨q1, q2, -⟩ := Ach.updStreak_counters user now (Ach.updCounters user r s)
  obtain ⟨w1, -⟩ := Ach.updStreak_flags_log user now (Ach.updCounters user r s)
  obtain ⟨tA0, tA1, tA2, tA3, tA4, tA5, tA6, tA7⟩ := Ach.checkTask_flags hx0
  obtain ⟨tB0, tB1, tB2, tB3, tB4⟩ := Ach.checkToken_flags hx2
  obtain ⟨tC0, tC1, tC2, tC3⟩ := Ach.checkStreak_flags hx3
  refine ⟨?_, ?_, ?_, ?_, ?_, ?_, ?_, ?_, ?_, ?_, ?_, ?_, ?_⟩
  · rw [pC3, pB3, pA3, q1]
    simp [Ach.updCounters, Ach.setc]
  · rw [pC4, pB4, pA4, q2]
    simp [Ach.updCounters, Ach.setc]
  · rw [tC1 .FIRST_TASK (by decide) (by decide),
        tB1 .FIRST_TASK (by decide) (by decide) (by decide), tA2, w1, q1]
    simp [Ach.updCounters, Ach.setc]
  · rw [tC1 .TASK_MILESTONE_5 (by decide) (by decide),
        tB1 .TASK_MILESTONE_5 (by decide) (by decide) (by decide), tA3, w1, q1]
    simp [Ach.updCounters, Ach.setc]
  · rw [tC1 .TASK_MILESTONE_10 (by decide) (by decide),
        tB1 .TASK_MILESTONE_10 (by decide) (by decide) (by decide), tA4, w1, q1]
    simp [Ach.updCounters, Ach.setc]
  · rw [tC1 .TASK_MILESTONE_25 (by decide) (by decide),
        tB1 .TASK_MILESTONE_25 (by decide) (by decide) (by decide), tA5, w1, q1]
    simp [Ach.updCounters, Ach.setc]
  · rw [tC1 .TASK_MILESTONE_50 (by decide) (by decide),
        tB1 .TASK_MILESTONE_50 (by decide) (by decide) (by decide), tA6, w1, q1]
    simp [Ach.updCounters, Ach.setc]
  · rw [tC1 .TASK_MILESTONE_100 (by decide) (by decide),
        tB1 .TASK_MILESTONE_100 (by decide) (by decide) (by decide), tA7, w1, q1]
    simp [Ach.updCounters, Ach.setc]
  · rw [tC1 .TOKEN_COLLECTOR_100 (by decide) (by decide), tB2, pA4, q2,
        tA1 .TOKEN_COLLECTOR_100 (by decide) (by decide) (by decide) (by decide)
          (by decide) (by decide), w1]
    simp [Ach.updCounters, Ach.setc]
  · rw [tC1 .TOKEN_COLLECTOR_500 (by decide) (by decide), tB3, pA4, q2,
        tA1 .TOKEN_COLLECTOR_500 (by decide) (by decide) (by decide) (by decide)
          (by decide) (by decide),
        tA1 .TOKEN_COLLECTOR_100 (by decide) (by decide) (by decide) (by decide)
          (by decide) (by decide), w1]
    simp [Ach.updCounters, Ach.setc]
  · rw [tC1 .TOKEN_COLLECTOR_1000 (by decide) (by decide), tB4, pA4, q2,
        tA1 .TOKEN_COLLECTOR_1000 (by decide) (by decide) (by decide) (by decide)
          (by decide) (by decide),
        tA1 .TOKEN_COLLECTOR_500 (by decide) (by decide) (by decide) (by decide)
          (by decide) (by decide),
        tA1 .TOKEN_COLLECTOR_100 (by decide) (by decide) (by decide) (by decide)
          (by decide) (by decide), w1]
    simp [Ach.updCounters, Ach.setc]
  · rw [tC2, ← pC7,
        tB1 .STREAK_7 (by decide) (by decide) (by decide),
        tA1 .STREAK_7 (by decide) (by decide) (by decide) (by decide)
          (by decide) (by decide), w1]
    simp [Ach.updCounters]
  · rw [tC3, ← pC7,
        tB1 .STREAK_30 (by decide) (by decide) (by decide),
        tB1 .STREAK_7 (by decide) (by decide) (by decide),
        tA1 .STREAK_30 (by decide) (by decide) (by decide) (by decide)
          (by decide) (by decide),
        tA1 .STREAK_7 (by decide) (by decide) (by decide) (by decide)
          (by decide) (by decide), w1]
    simp [Ach.updCounters]

/-- The state after the single 1090-token completion update. -/
def achC2 : Ach.State := Ach.run [.updateTaskCompletion 1 5 1090 100000] (Ach.achInit 1)

/-- C2 witness: the amended theorem instantiated on the 1090-token jump —
`TOKEN_COLLECTOR_500` stays unawarded because `TOKEN_COLLECTOR_100` was not
already held before the update. -/
theorem threshold_chain_awards_first_match_witness :
    achC2.tokensEarned 5 = (Ach.achInit 1).tokensEarned 5 + 1090 ∧
    achC2.hasAchievement 5 .TOKEN_COLLECTOR_500 =
      ((Ach.achInit 1).hasAchievement 5 .TOKEN_COLLECTOR_500 ||
        ((Ach.achInit 1).hasAchievement 5 .TOKEN_COLLECTOR_100 &&
          decide (500 ≤ (Ach.achInit 1).tokensEarned 5 + 1090))) := by
  have h := threshold_chain_awards_first_match 1 5 1090 100000 (Ach.achInit 1) achC2 rfl
  exact ⟨h.2.1, h.2.2.2.2.2.2.2.2.2.1⟩

/-! ## C3: the streak against the longest-consecutive-suffix spec -/

/-- Token ids at or above the counter are unminted (holds in every reachable
state; `_safeMint` relies on it). -/
def Ach.Fresh (s : Ach.State) : Prop :=
  ∀ i, s.tokenIdCounter ≤ i → s.owners i = 0

theorem Ach.mintCore_fresh {user : Nat} {ty : Ach.AchievementType} {uri : String}
    {now : Nat} {s s' : Ach.State}
    (h : Ach.mintCore user ty uri now s = .ok s') (hf : Ach.Fresh s) :
    Ach.Fresh s' := by
  obtain ⟨-, hctr, -, -, hown, -⟩ := Ach.mintCore_ok h
  intro i hi
  rw [hctr] at hi
  rw [hown i, if_neg (by omega)]
  exact hf i (by omega)

theorem Ach.checkTask_total (user now : Nat) (s : Ach.State) (hu : user ≠ 0)
    (hf : Ach.Fresh s) :
    ∃ s', Ach.checkTaskAchievements user now s = .ok s' ∧ Ach.Fresh s' := by
  unfold Ach.checkTaskAchievements Ach.mintAchievementI
  split_ifs <;>
    first
      | exact ⟨s, rfl, hf⟩
      | (obtain ⟨s', hok⟩ := Ach.mintCore_isOk user _ _ now s hu (hf _ le_rfl)
         exact ⟨s', hok, Ach.mintCore_fresh hok hf⟩)

theorem Ach.checkToken_total (user now : Nat) (s : Ach.State) (hu : user ≠ 0)
    (hf : Ach.Fresh s) :
    ∃ s', Ach.checkTokenAchievements user now s = .ok s' ∧ Ach.Fresh s' := by
  unfold Ach.checkTokenAchievements Ach.mintAchievementI
  split_ifs <;>
    first
      | exact ⟨s, rfl, hf⟩
      | (obtain ⟨s', hok⟩ := Ach.mintCore_isOk user _ _ now s hu (hf _ le_rfl)
         exact ⟨s', hok, Ach.mintCore_fresh hok hf⟩)

theorem Ach.checkStreak_total (user now : Nat) (s : Ach.State) (hu : user ≠ 0)
    (hf : Ach.Fresh s) :
    ∃ s', Ach.checkStreakAchievements user now s = .ok s' ∧ Ach.Fresh s' := by
  unfold Ach.checkStreakAchievements Ach.mintAchievementI
  split_ifs <;>
    first
      | exact ⟨s, rfl, hf⟩
      | (obtain ⟨s', hok⟩ := Ach.mintCore_isOk user _ _ now s hu (hf _ le_rfl)
         exact ⟨s', hok, Ach.mintCore_fresh hok hf⟩)

/-- The streak block leaves roles and token bookkeeping untouched. -/
theorem Ach.updStreak_token (user now : Nat) (s : Ach.State) :
    (Ach.updStreak user now s).minters = s.minters ∧
    (Ach.updStreak user now s).tokenIdCounter = s.tokenIdCounter ∧
    (Ach.updStreak user now s).owners = s.owners := by
  unfold Ach.updStreak Ach.streakStamp Ach.streakMax Ach.streakCore
  split_ifs <;> exact ⟨rfl, rfl, rfl⟩

/-- The streak-branch value written for the updated user. -/
theorem Ach.streakCore_current (user now : Nat) (s : Ach.State) :
    (Ach.streakCore user now s).currentStreak user =
      (if s.lastTaskCompletionDate user / 86400 = 0 ∨
          now / 86400 = s.lastTaskCompletionDate user / 86400 + 1 then
        s.currentStreak user + 1
      else if s.lastTaskCompletionDate user / 86400 + 1 < now / 86400 then 1
      else s.currentStreak user) := by
  unfold Ach.streakCore
  split_ifs <;> simp [Ach.setc]

theorem Ach.updStreak_current (user now : Nat) (s : Ach.State) :
    (Ach.updStreak user now s).currentStreak user =
      (if s.lastTaskCompletionDate user / 86400 = 0 ∨
          now / 86400 = s.lastTaskCompletionDate user / 86400 + 1 then
        s.currentStreak user + 1
      else if s.lastTaskCompletionDate user / 86400 + 1 < now / 86400 then 1
      else s.currentStreak user) := by
  have h1 : (Ach.updStreak user now s).currentStreak user =
      (Ach.streakMax user (Ach.streakCore user now s)).currentStreak user := rfl
  rw [h1, (Ach.streakMax_spec user (Ach.streakCore user now s)).1,
    Ach.streakCore_current]

theorem Ach.updStreak_lastDate (user now : Nat) (s : Ach.State) :
    (Ach.updStreak user now s).lastTaskCompletionDate user = now := by
  show Ach.setc _ user now user = now
  simp [Ach.setc]

/-- `updateTaskCompletion` by a minter on a nonzero user always commits (in
a state with fresh token ids), and its streak effect for the user is exactly
the source's branch structure. -/
theorem Ach.updateTaskCompletion_total {caller user r now : Nat} {s : Ach.State}
    (hm : caller ∈ s.minters) (hu : user ≠ 0) (hf : Ach.Fresh s) :
    ∃ s', Ach.updateTaskCompletion caller user r now s = .ok s' ∧
      s'.currentStreak user =
        (if s.lastTaskCompletionDate user / 86400 = 0 ∨
            now / 86400 = s.lastTaskCompletionDate user / 86400 + 1 then
          s.currentStreak user + 1
        else if s.lastTaskCompletionDate user / 86400 + 1 < now / 86400 then 1
        else s.currentStreak user) ∧
      s'.lastTaskCompletionDate user = now ∧
      s'.minters = s.minters ∧ Ach.Fresh s' := by
  have hf4 : Ach.Fresh (Ach.updStreak user now (Ach.updCounters user r s)) := by
    intro i hi
    rw [(Ach.updStreak_token user now _).2.2]
    exact hf i (by rw [(Ach.updStreak_token user now _).2.1] at hi; exact hi)
  obtain ⟨x0, h0, hf0⟩ :=
    Ach.checkTask_total user now (Ach.updStreak user now (Ach.updCounters user r s)) hu hf4
  obtain ⟨x1, h1, hf1⟩ := Ach.checkToken_total user now x0 hu hf0
  obtain ⟨s', h2, hf2⟩ := Ach.checkStreak_total user now x1 hu hf1
  obtain ⟨pA1, -, -, -, -, pA6, pA7, -⟩ := Ach.checkTask_preserve h0
  obtain ⟨pB1, -, -, -, -, pB6, pB7, -⟩ := Ach.checkToken_preserve h1
  obtain ⟨pC1, -, -, -, -, pC6, pC7, -⟩ := Ach.checkStreak_preserve h2
  refine ⟨s', ?_, ?_, ?_, ?_, hf2⟩
  · unfold Ach.updateTaskCompletion
    rw [if_pos hm, h0]
    show (Except.ok x0 >>= Ach.checkTokenAchievements user now >>=
        Ach.checkStreakAchievements user now) = .ok s'
    rw [show (Except.ok x0 >>= Ach.checkTokenAchievements user now) =
        Ach.checkTokenAchievements user now x0 from rfl, h1]
    exact h2
  · rw [pC7, pB7, pA7, Ach.updStreak_current]
    rfl
  · rw [pC6, pB6, pA6, Ach.updStreak_lastDate]
  · rw [pC1, pB1, pA1, (Ach.updStreak_token user now _).1]
    rfl

/-- Walks a reversed day list: 1 for the last day, +1 while each earlier
(collapsed) day is exactly one less, stopping at the first gap — the length
of the longest suffix of consecutive integers ending at the last day, with
same-day repeats collapsed. -/
def consecSuffixRev : List Nat → Nat
  | [] => 0
  | [_] => 1
  | d :: e :: rest =>
      if d = e then consecSuffixRev (e :: rest)
      else if d = e + 1 then 1 + consecSuffixRev (e :: rest)
      else 1

/-- The claim's streak specification: length of the longest suffix of
consecutive integers ending at the last element of the day sequence,
same-day repeats collapsed to a no-op. -/
def longestConsecSuffixLen (l : List Nat) : Nat := consecSuffixRev l.reverse

theorem Ach.run_append (l1 l2 : List Ach.Op) (s : Ach.State) :
    Ach.run (l1 ++ l2) s = Ach.run l2 (Ach.run l1 s) := by
  simp [Ach.run]

/-- Invariant of a nonempty, chronologically ordered completion trace with
all timestamps at or past day 1: the streak equals the consecutive-suffix
length of the day sequence, the stored completion date is the last
timestamp, and the minter role and token freshness persist. -/
theorem Ach.completion_trace (M u r : Nat) (hu : u ≠ 0) : ∀ ts : List Nat,
    ts ≠ [] → ts.Chain' (· ≤ ·) → (∀ t ∈ ts, 86400 ≤ t) →
    (Ach.run (ts.map fun t => Ach.Op.updateTaskCompletion M u r t)
        (Ach.achInit M)).currentStreak u =
      consecSuffixRev ((ts.map fun t => t / 86400).reverse) ∧
    (Ach.run (ts.map fun t => Ach.Op.updateTaskCompletion M u r t)
        (Ach.achInit M)).lastTaskCompletionDate u = ts.getLast?.getD 0 ∧
    (Ach.run (ts.map fun t => Ach.Op.updateTaskCompletion M u r t)
        (Ach.achInit M)).minters = [M] ∧
    Ach.Fresh (Ach.run (ts.map fun t => Ach.Op.updateTaskCompletion M u r t)
        (Ach.achInit M)) := by
  intro ts
  induction ts using List.reverseRecOn with
  | nil => intro hne _ _; exact absurd rfl hne
  | append_singleton l t ih =>
    intro _ hchain hpos
    rw [List.map_append, Ach.run_append]
    simp only [List.map_cons, List.map_nil]
    by_cases hl : l = []
    · subst hl
      obtain ⟨s', hok, hcur, hlast, hmin, hfr⟩ :=
        @Ach.updateTaskCompletion_total M u r t (Ach.achInit M)
          (by simp [Ach.achInit]) hu (fun i hi => rfl)
      simp only [List.map_nil]
      rw [show Ach.run [Ach.Op.updateTaskCompletion M u r t]
            (Ach.run [] (Ach.achInit M)) =
          Ach.stepK (Ach.Op.updateTaskCompletion M u r t) (Ach.achInit M) from rfl,
        @Ach.badgeStepK_commit (.updateTaskCompletion M u r t) _ _ hok]
      refine ⟨?_, by simpa using hlast, by simpa using hmin, hfr⟩
      rw [hcur]
      simp [Ach.achInit, consecSuffixRev]
    · have hchain' : l.Chain' (· ≤ ·) := (List.chain'_append.1 hchain).1
      have hposl : ∀ x ∈ l, 86400 ≤ x := fun x hx => hpos x (List.mem_append_left _ hx)
      obtain ⟨ih1, ih2, ih3, ih4⟩ := ih hl hchain' hposl
      obtain ⟨lastT, hgl⟩ : ∃ x, l.getLast? = some x := by
        cases hgl0 : l.getLast? with
        | none => exact absurd (List.getLast?_eq_none_iff.1 hgl0) hl
        | some x => exact ⟨x, rfl⟩
      have hlastpos : 86400 ≤ lastT := hposl lastT (List.mem_of_getLast?_eq_some hgl)
      have hlt : lastT ≤ t := by
        have := (List.chain'_append.1 hchain).2.2 lastT (by rw [hgl]; rfl) t rfl
        exact this
      obtain ⟨s', hok, hcur, hlast, hmin, hfr⟩ :=
        @Ach.updateTaskCompletion_total M u r t
          (Ach.run (l.map fun x => Ach.Op.updateTaskCompletion M u r x) (Ach.achInit M))
          (by rw [ih3]; exact List.mem_singleton.mpr rfl) hu ih4
      rw [show Ach.run [Ach.Op.updateTaskCompletion M u r t]
            (Ach.run (l.map fun x => Ach.Op.updateTaskCompletion M u r x) (Ach.achInit M)) =
          Ach.stepK (Ach.Op.updateTaskCompletion M u r t)
            (Ach.run (l.map fun x => Ach.Op.updateTaskCompletion M u r x) (Ach.achInit M))
          from rfl, @Ach.badgeStepK_commit (.updateTaskCompletion M u r t) _ _ hok]
      have he1 : 1 ≤ lastT / 86400 := by
        have h0 : 86400 / 86400 ≤ lastT / 86400 := Nat.div_le_div_right hlastpos
        simpa using h0
      have hde : lastT / 86400 ≤ t / 86400 := Nat.div_le_div_right hlt
      have hlastday : (Ach.run (l.map fun x => Ach.Op.updateTaskCompletion M u r x)
          (Ach.achInit M)).lastTaskCompletionDate u = lastT := by
        rw [ih2, hgl]
        rfl
      have hhead : ((l.map fun x => x / 86400).reverse).head? = some (lastT / 86400) := by
        rw [List.head?_reverse, List.getLast?_map, hgl]
        rfl
      cases hrev : (l.map fun x => x / 86400).reverse with
      | nil =>
        rw [hrev] at hhead
        exact absurd hhead (by simp)
      | cons e0 rest =>
        have he0 : e0 = lastT / 86400 := by
          rw [hrev] at hhead
          simpa using hhead
        subst he0
        refine ⟨?_, ?_, by rw [hmin, ih3], hfr⟩
        · rw [hcur, hlastday, ih1, hrev]
          rw [show ((l ++ [t]).map fun x => x / 86400).reverse =
              t / 86400 :: (l.map fun x => x / 86400).reverse by
                simp [List.map_append], hrev]
          by_cases h1 : t / 86400 = lastT / 86400 + 1
          · rw [if_pos (Or.inr h1)]
            rw [show consecSuffixRev (t / 86400 :: lastT / 86400 :: rest) =
                if t / 86400 = lastT / 86400 then consecSuffixRev (lastT / 86400 :: rest)
                else if t / 86400 = lastT / 86400 + 1 then
                  1 + consecSuffixRev (lastT / 86400 :: rest)
                else 1 from rfl]
            rw [if_neg (by omega), if_pos h1]
            omega
          · rw [if_neg (by omega)]
            by_cases h2 : lastT / 86400 + 1 < t / 86400
            · rw [if_pos h2]
              rw [show consecSuffixRev (t / 86400 :: lastT / 86400 :: rest) =
                  if t / 86400 = lastT / 86400 then consecSuffixRev (lastT / 86400 :: rest)
                  else if t / 86400 = lastT / 86400 + 1 then
                    1 + consecSuffixRev (lastT / 86400 :: rest)
                  else 1 from rfl]
              rw [if_neg (by omega), if_neg (by omega)]
            · rw [if_neg h2]
              have hdd : t / 86400 = lastT / 86400 := by omega
              rw [show consecSuffixRev (t / 86400 :: lastT / 86400 :: rest) =
                  if t / 86400 = lastT / 86400 then consecSuffixRev (lastT / 86400 :: rest)
                  else if t / 86400 = lastT / 86400 + 1 then
                    1 + consecSuffixRev (lastT / 86400 :: rest)
                  else 1 from rfl]
              rw [if_pos hdd]
        · rw [hlast, List.getLast?_concat]
          rfl

/-- C3 counterexample: a first completion on day 0 (timestamp 1000) followed
by one on day 5 leaves `currentStreak = 2` — the stored day-0 completion is
mistaken for "no previous completion" (`lastDay == 0`), so the gap of five
days increments instead of resetting — while the longest consecutive suffix
ending at day 5 has length 1. -/
theorem day_zero_streak_mismatch :
    List.Chain' (· ≤ ·) [1000, 432000] ∧
    ([1000, 432000].map fun t => t / 86400) = [0, 5] ∧
    (Ach.run ([1000, 432000].map fun t => Ach.Op.updateTaskCompletion 1 5 0 t)
        (Ach.achInit 1)).currentStreak 5 = 2 ∧
    longestConsecSuffixLen ([1000, 432000].map fun t => t / 86400) = 1 :=
  ⟨by norm_num [List.chain'_cons], by decide, by decide, by decide⟩

/-- C3 amended: for every user and every chronologically ordered, nonempty
sequence of completion timestamps that all lie at or past day 1 (so that a
stored completion date is never mistaken for "no previous completion"),
after processing the sequence from a fresh deployment the user's
`currentStreak` equals the length of the longest suffix of consecutive
integers ending at the last completion day, with same-day repeats
collapsed. -/
theorem currentStreak_is_longest_suffix (M u r : Nat) (ts : List Nat)
    (hu : u ≠ 0) (hne : ts ≠ []) (hchain : ts.Chain' (· ≤ ·))
    (hpos : ∀ t ∈ ts, 86400 ≤ t) :
    (Ach.run (ts.map fun t => Ach.Op.updateTaskCompletion M u r t)
        (Ach.achInit M)).currentStreak u =
      longestConsecSuffixLen (ts.map fun t => t / 86400) :=
  (Ach.completion_trace M u r hu ts hne hchain hpos).1

/-- C3 witness: days 1, 2, 2, 4 (same-day repeat and a gap) give streak 1
after the reset, matching the spec value. -/
theorem currentStreak_is_longest_suffix_witness :
    (Ach.run ([86400, 172800, 180000, 349000].map
        fun t => Ach.Op.updateTaskCompletion 1 5 0 t)
        (Ach.achInit 1)).currentStreak 5 =
      longestConsecSuffixLen ([86400, 172800, 180000, 349000].map fun t => t / 86400) :=
  currentStreak_is_longest_suffix 1 5 0 [86400, 172800, 180000, 349000]
    (by decide) (by decide) (by norm_num [List.chain'_cons]) (by decide)
